import Mathlib

/-!
Shallow embedding of the rustykeen KenKen engine (crates kenken-core,
kenken-solver, kenken-gen) and proofs about it.

Conventions of the embedding:
* Rust u8/u16/u32/u64/usize values are modelled as Nat; where a wrap-around
  can actually occur in the source, an explicit `% 2^w` is written.
* Rust i32 values (cage targets, running sums/products) are modelled as Int;
  `saturating_mul` is modelled explicitly by clamping to the i32 range.
* Fallible Rust functions returning Result are modelled with Except.
* Mutable state is passed explicitly; loops whose bound is not structural
  are given a fuel argument that provably dominates the iteration count at
  every use site (fuel exhaustion is a distinguished error that the
  top-level entry points can never produce with the fuel they pass).
-/

deriving instance DecidableEq for Except

namespace RustyKeen

/-- Mask of a full 64-bit word, the value of Rust u64::MAX. -/
def MASK64 : Nat := 2 ^ 64 - 1

/-- Bitwise complement on 64-bit words (Rust `!x` on u64), for x < 2^64. -/
def u64not (x : Nat) : Nat := MASK64 ^^^ x

/-- Popcount of a u64 value (Rust `u64::count_ones`). -/
def popcount64 (x : Nat) : Nat :=
  ((List.range 64).filter (fun i => x.testBit i)).length

/-- Indices of the set bits of a u64 value, ascending.  This is the order in
which Rust `domain_iter` (repeated `trailing_zeros` + clear) yields them. -/
def domainBits (x : Nat) : List Nat :=
  (List.range 64).filter (fun i => x.testBit i)

/-- Trailing-zero count of a u64 value (Rust `u64::trailing_zeros`); 64 for 0. -/
def trailingZeros64 (x : Nat) : Nat :=
  ((List.range 64).find? (fun i => x.testBit i)).getD 64

/-- Largest representable i32, as an Int. -/
def i32max : Int := 2 ^ 31 - 1

/-- Smallest representable i32, as an Int. -/
def i32min : Int := -(2 ^ 31)

/-- Rust `i32::saturating_mul`. -/
def satMul (a b : Int) : Int := max i32min (min i32max (a * b))

/-! ## kenken-core: rules.rs -/

/-- Cage operation (kenken-core/src/rules.rs `Op`). -/
inductive Op
  | Add
  | Mul
  | Sub
  | Div
  | Eq
deriving DecidableEq, Repr

/-- Ruleset (kenken-core/src/rules.rs `Ruleset`); `max_cage_size` is a u8. -/
structure Ruleset where
  sub_div_two_cell_only : Bool
  require_orthogonal_cage_connectivity : Bool
  max_cage_size : Nat
deriving DecidableEq, Repr

/-- The baseline ruleset `Ruleset::keen_baseline()`. -/
def Ruleset.keen_baseline : Ruleset :=
  { sub_div_two_cell_only := true
    require_orthogonal_cage_connectivity := true
    max_cage_size := 6 }

/-! ## kenken-core: error.rs -/

/-- Typed validation errors (kenken-core/src/error.rs `CoreError`). -/
inductive CoreError
  | InvalidGridSize (n : Nat)
  | EmptyCage
  | CellOutOfRange (n : Nat) (cell : Nat)
  | CellDuplicated (cell : Nat)
  | CellUncovered (cell : Nat)
  | InvalidOpForCageSize (op : Op) (len : Nat)
  | SubDivMustBeTwoCell
  | CageTooLarge (len : Nat) (max : Nat)
  | EqTargetOutOfRange
  | TargetMustBeNonZero
  | CageNotConnected
deriving DecidableEq, Repr

/-! ## kenken-core: puzzle.rs -/

/-- Cage (kenken-core/src/puzzle.rs): cell ids (u16 as Nat), op, i32 target. -/
structure Cage where
  cells : List Nat
  op : Op
  target : Int
deriving DecidableEq, Repr

/-- Puzzle (kenken-core/src/puzzle.rs): grid size n (u8) and cages. -/
structure Puzzle where
  n : Nat
  cages : List Cage
deriving DecidableEq, Repr

/-- Fallback cage used to totalise out-of-range cage indexing; every solver
entry point validates the puzzle first, which makes the fallback
unreachable there (Rust would panic on an out-of-range index). -/
def dummyCage : Cage := { cells := [], op := Op.Add, target := 0 }

instance : Inhabited Cage := ⟨dummyCage⟩

/-- Function `cell_index` of puzzle.rs: bounds-check a cell id against n*n. -/
def cell_index (n : Nat) (cell : Nat) : Except CoreError Nat :=
  if cell ≥ n * n then Except.error (CoreError.CellOutOfRange n cell)
  else Except.ok cell

/-- Function `cell_id` of puzzle.rs.  The id is computed in u16 arithmetic
(`(row as u16) * (n as u16) + col as u16`), hence the explicit mod 2^16;
for u8 inputs the product plus sum never reaches 2^16, so the mod is inert. -/
def cell_id (n row col : Nat) : Except CoreError Nat :=
  if row ≥ n ∨ col ≥ n then
    Except.error (CoreError.CellOutOfRange n ((row * n + col) % 2 ^ 16))
  else Except.ok ((row * n + col) % 2 ^ 16)

/-- Function `coord` of puzzle.rs: row-major decode of a cell id. -/
def coord (n : Nat) (cell : Nat) : Except CoreError (Nat × Nat) := do
  let idx ← cell_index n cell
  Except.ok (idx / n, idx % n)

/-- One `push` of the DFS in `is_orthogonally_connected`: bounds-check the
neighbour coordinates, then push it if unvisited (marking it visited). -/
def connPush (n : Nat) (vs : List Bool × List Nat) (nr nc : Int) :
    List Bool × List Nat :=
  if nr < 0 ∨ nc < 0 then vs
  else
    let nr := nr.toNat
    let nc := nc.toNat
    if nr ≥ n ∨ nc ≥ n then vs
    else
      let nidx := nr * n + nc
      if vs.1.getD nidx false then vs
      else (vs.1.set nidx true, nidx :: vs.2)

/-- Main loop of `is_orthogonally_connected` (puzzle.rs).  The Rust loop pops
a stack until empty; every push marks its cell visited first, so at most
n*n iterations run and fuel n*n suffices. -/
def connLoop (n : Nat) (in_cage : List Bool) :
    Nat → List Nat → List Bool → Nat → Nat
  | _, [], _, count => count
  | 0, _ :: _, _, count => count
  | fuel + 1, idx :: rest, visited, count =>
    if in_cage.getD idx false = false then
      connLoop n in_cage fuel rest visited count
    else
      let r := idx / n
      let c := idx % n
      let vs := connPush n (visited, rest) ((r : Int) - 1) (c : Int)
      let vs := connPush n vs ((r : Int) + 1) (c : Int)
      let vs := connPush n vs (r : Int) ((c : Int) - 1)
      let vs := connPush n vs (r : Int) ((c : Int) + 1)
      connLoop n in_cage fuel vs.2 vs.1 (count + 1)

/-- Function `is_orthogonally_connected` of puzzle.rs. -/
def is_orthogonally_connected (n : Nat) (cells : List Nat) : Bool :=
  if cells.length ≤ 1 then true
  else
    let a := n * n
    let in_cage := cells.foldl
      (fun ic c => if c < a then ic.set c true else ic)
      (List.replicate a false)
    match cells with
    | [] => true
    | start :: _ =>
      if start ≥ a then false
      else
        let visited := (List.replicate a false).set start true
        connLoop n in_cage a [start] visited 0 == cells.length

/-- Loop `for &cell in &cage.cells { cell_index(n, cell)?; }` of
validate_shape: the first out-of-range cell aborts with its error. -/
def checkCells (n : Nat) : List Nat → Except CoreError Unit
  | [] => Except.ok ()
  | c :: rest =>
    match cell_index n c with
    | Except.error e => Except.error e
    | Except.ok _ => checkCells n rest

/-- Method `Cage::validate_shape` of puzzle.rs: the sequence of early
returns of the source, written as nested alternatives. -/
def Cage.validate_shape (cage : Cage) (n : Nat) (rules : Ruleset) :
    Except CoreError Unit :=
  if cage.cells.length = 0 then Except.error CoreError.EmptyCage
  else if cage.cells.length > rules.max_cage_size then
    Except.error (CoreError.CageTooLarge cage.cells.length rules.max_cage_size)
  else
    let opCheck : Option CoreError :=
      match cage.op, cage.cells.length with
      | Op.Eq, 1 => none
      | Op.Eq, len => some (CoreError.InvalidOpForCageSize Op.Eq len)
      | Op.Sub, len =>
        if rules.sub_div_two_cell_only ∧ len ≠ 2 then
          some CoreError.SubDivMustBeTwoCell
        else none
      | Op.Div, len =>
        if rules.sub_div_two_cell_only ∧ len ≠ 2 then
          some CoreError.SubDivMustBeTwoCell
        else none
      | _, _ => none
    match opCheck with
    | some e => Except.error e
    | none =>
      if cage.target = 0 then Except.error CoreError.TargetMustBeNonZero
      else if cage.op = Op.Eq
          ∧ ¬(1 ≤ cage.target ∧ cage.target ≤ (n : Int)) then
        Except.error CoreError.EqTargetOutOfRange
      else
        match checkCells n cage.cells with
        | Except.error e => Except.error e
        | Except.ok _ =>
          if rules.require_orthogonal_cage_connectivity
              ∧ is_orthogonally_connected n cage.cells = false then
            Except.error CoreError.CageNotConnected
          else Except.ok ()

/-- Inner loop of Puzzle::validate: record each cell of a cage in the seen
array, failing on out-of-range or already seen cells. -/
def markCells (n : Nat) : List Nat → List Bool → Except CoreError (List Bool)
  | [], seen => Except.ok seen
  | c :: rest, seen =>
    match cell_index n c with
    | Except.error e => Except.error e
    | Except.ok idx =>
      if seen.getD idx false then Except.error (CoreError.CellDuplicated c)
      else markCells n rest (seen.set idx true)

/-- Outer loop of Puzzle::validate over the cages. -/
def validateCages (n : Nat) (rules : Ruleset) :
    List Cage → List Bool → Except CoreError (List Bool)
  | [], seen => Except.ok seen
  | cage :: rest, seen =>
    match cage.validate_shape n rules with
    | Except.error e => Except.error e
    | Except.ok _ =>
      match markCells n cage.cells seen with
      | Except.error e => Except.error e
      | Except.ok seen2 => validateCages n rules rest seen2

/-- Method `Puzzle::validate` of puzzle.rs, for the default build
configuration (no core-u64 / core-bitvec feature), whose grid-size window
is 1..=31. -/
def Puzzle.validate (p : Puzzle) (rules : Ruleset) : Except CoreError Unit :=
  if ¬(1 ≤ p.n ∧ p.n ≤ 31) then
    Except.error (CoreError.InvalidGridSize p.n)
  else
    match validateCages p.n rules p.cages
        (List.replicate (p.n * p.n) false) with
    | Except.error e => Except.error e
    | Except.ok seen =>
      match (List.range (p.n * p.n)).find?
          (fun idx => !seen.getD idx false) with
      | some idx => Except.error (CoreError.CellUncovered idx)
      | none => Except.ok ()

/-! ## kenken-core: domain.rs

`BitDomain` stores a BitVec of exactly n+1 bits; bit v stands for value v.
The embedding mirrors it as a list of n+1 booleans: `get_mut` on an
out-of-range index is a no-op exactly as `List.set` is. -/

/-- BitDomain (kenken-core/src/domain.rs): n+1 stored bits. -/
structure BitDomain where
  bits : List Bool
deriving DecidableEq, Repr

/-- Constructor `BitDomain::empty`: n+1 zero bits. -/
def BitDomain.empty (n : Nat) : BitDomain := ⟨List.replicate (n + 1) false⟩

/-- Method `BitDomain::insert` (no-op when v is out of the stored range,
like the Rust `get_mut` guard). -/
def BitDomain.insert (d : BitDomain) (v : Nat) : BitDomain := ⟨d.bits.set v true⟩

/-- Method `BitDomain::remove`. -/
def BitDomain.remove (d : BitDomain) (v : Nat) : BitDomain := ⟨d.bits.set v false⟩

/-- Method `BitDomain::contains`. -/
def BitDomain.contains (d : BitDomain) (v : Nat) : Bool := d.bits.getD v false

/-- Method `BitDomain::count` (count_ones of the stored bits). -/
def BitDomain.count (d : BitDomain) : Nat := d.bits.count true

/-- Constructor `BitDomain::full`: insert 1..=n into the empty domain. -/
def BitDomain.full (n : Nat) : BitDomain :=
  (List.range n).foldl (fun d v => d.insert (v + 1)) (BitDomain.empty n)

/-! ## kenken-solver: solver.rs, leaf definitions -/

/-- Function `full_domain` of solver.rs: bits 1..=n of a u64 mask (with the
source's n ≥ 63 branch returning u64::MAX verbatim). -/
def full_domain (n : Nat) : Nat :=
  if n ≥ 63 then MASK64
  else ((1 <<< (n + 1)) - 1) &&& u64not 1

/-- Solution (solver.rs): grid size and n*n digits, 0 meaning unassigned. -/
structure Solution where
  n : Nat
  grid : List Nat
deriving DecidableEq, Repr

/-- SolveStats (solver.rs).  The field the source names `backtracked` is the
branched flag: true iff some node tried more than one value. -/
structure SolveStats where
  nodes_visited : Nat
  assignments : Nat
  max_depth : Nat
  backtracked : Bool
deriving DecidableEq, Repr

/-- Blank statistics (`SolveStats::default`). -/
def SolveStats.default : SolveStats :=
  { nodes_visited := 0, assignments := 0, max_depth := 0, backtracked := false }

/-- DifficultyTier (solver.rs). -/
inductive DifficultyTier
  | Easy
  | Normal
  | Hard
  | Extreme
  | Unreasonable
deriving DecidableEq, Repr

/-- DeductionTier (solver.rs). -/
inductive DeductionTier
  | None
  | Easy
  | Normal
  | Hard
deriving DecidableEq, Repr

/-- SolveError (kenken-solver/src/error.rs), plus a distinguished
fuel-exhaustion marker used by the embedding alone: the source loops have
no such outcome, and the fuel chosen at every call site strictly dominates
the iteration count, so the marker is unreachable from the entry points. -/
inductive SolveError
  | NotImplemented
  | GridSizeTooLarge (n : Nat) (hint : String)
  | Core (e : CoreError)
  | FuelExhausted
deriving DecidableEq, Repr

/-- TierRequiredResult (solver.rs). -/
structure TierRequiredResult where
  tier_required : Option DeductionTier
  stats : SolveStats
deriving DecidableEq, Repr

/-- Function `classify_difficulty_from_stats` of solver.rs (assignment-count
thresholds 200 / 2000 / 20000 / 200000). -/
def classify_difficulty_from_stats (stats : SolveStats) : DifficultyTier :=
  if stats.assignments ≤ 200 then DifficultyTier.Easy
  else if stats.assignments ≤ 2000 then DifficultyTier.Normal
  else if stats.assignments ≤ 20000 then DifficultyTier.Hard
  else if stats.assignments ≤ 200000 then DifficultyTier.Extreme
  else DifficultyTier.Unreasonable

/-- Function `classify_difficulty_from_tier` of solver.rs.  Note the guess
branch compares `stats.nodes_visited`, not `stats.assignments`, to 50000. -/
def classify_difficulty_from_tier (result : TierRequiredResult) : DifficultyTier :=
  match result.tier_required with
  | some DeductionTier.Easy => DifficultyTier.Easy
  | some DeductionTier.Normal => DifficultyTier.Normal
  | some DeductionTier.Hard => DifficultyTier.Hard
  | some DeductionTier.None => classify_difficulty_from_stats result.stats
  | none =>
    if result.stats.nodes_visited ≤ 50000 then DifficultyTier.Extreme
    else DifficultyTier.Unreasonable

/-! ## kenken-solver: solver.rs, search state -/

/-- CacheTupleKey (solver.rs): op byte, tier byte, target, cells count,
cells hash, domain hash.  The source uses a 6-tuple; a structure is used
here because it carries the same data with named components. -/
structure CacheTupleKey where
  op_byte : Nat
  tier_byte : Nat
  target : Int
  cells_len : Nat
  cells_hash : Nat
  domain_hash : Nat
deriving DecidableEq, Repr

/-- CachedTupleResult (solver.rs). -/
structure CachedTupleResult where
  per_pos : List Nat
  any_mask : Nat
deriving DecidableEq, Repr

/-- Search state (solver.rs `State` together with its `MrvCache`); the
HashMap tuple cache is modelled as an association list whose most recent
insertion shadows older entries, matching HashMap::insert + get. -/
structure SState where
  n : Nat
  grid : List Nat
  row_mask : List Nat
  col_mask : List Nat
  cage_of_cell : List Nat
  tuple_cache : List (CacheTupleKey × CachedTupleResult)
  mrv_min_cell : Nat
  mrv_min_count : Nat
  mrv_valid : Bool
  mrv_dirty : List Bool
deriving DecidableEq, Repr

/-- Function `place` of solver.rs. -/
def place (st : SState) (row col d : Nat) : SState :=
  let idx := row * st.n + col
  { st with
    grid := st.grid.set idx d
    row_mask := st.row_mask.set row ((st.row_mask.getD row 0) ||| (1 <<< d))
    col_mask := st.col_mask.set col ((st.col_mask.getD col 0) ||| (1 <<< d)) }

/-- Function `unplace` of solver.rs; it also invalidates the MRV cache. -/
def unplace (st : SState) (row col d : Nat) : SState :=
  let idx := row * st.n + col
  { st with
    grid := st.grid.set idx 0
    row_mask := st.row_mask.set row ((st.row_mask.getD row 0) &&& u64not (1 <<< d))
    col_mask := st.col_mask.set col ((st.col_mask.getD col 0) &&& u64not (1 <<< d))
    mrv_valid := false }

/-- Function `domain_min_max` of solver.rs: (trailing_zeros, 63 -
leading_zeros) of a nonzero u64, i.e. lowest and highest set bit. -/
def domain_min_max (dom : Nat) : Option (Nat × Nat) :=
  if dom = 0 then none
  else
    match domainBits dom with
    | [] => none
    | b :: bs => some (b, (b :: bs).getLastD b)

/-- Function `domain_for_cell` of solver.rs: full domain minus row/column
masks, intersected with the pinned target for a 1-cell Eq cage. -/
def domain_for_cell (p : Puzzle) (st : SState) (idx row col : Nat) :
    Except CoreError Nat :=
  let n := st.n
  let dom := full_domain n &&& u64not (st.row_mask.getD row 0)
      &&& u64not (st.col_mask.getD col 0)
  let cage := p.cages.getD (st.cage_of_cell.getD idx 0) dummyCage
  if cage.cells.length = 1 ∧ cage.op = Op.Eq then
    if cage.target ≤ 0 ∨ cage.target > (n : Int) then
      Except.error CoreError.EqTargetOutOfRange
    else Except.ok (dom &&& (1 <<< cage.target.toNat))
  else Except.ok dom

/-- Predicate `MrvCache::has_dirty_cells`. -/
def hasDirty (st : SState) : Bool := st.mrv_dirty.any id

/-- Outcome of the full MRV rescan: either some unassigned cell had an empty
domain (early return of Ok(None) in the source), or the scan finished with
the best cell found, if any. -/
inductive MrvScan
  | emptyDom
  | done (best : Option (Nat × Nat × Nat))
deriving DecidableEq, Repr

/-- Rescan loop of `choose_mrv_cell` (solver.rs): skip assigned cells, fail
fast on an empty domain, keep the cell with the smallest domain, and break
once a size-1 domain is found. -/
def mrvRescan (p : Puzzle) (st : SState) :
    List Nat → Option (Nat × Nat × Nat) → Except SolveError MrvScan
  | [], best => Except.ok (MrvScan.done best)
  | idx :: rest, best =>
    if st.grid.getD idx 0 ≠ 0 then mrvRescan p st rest best
    else do
      let dom ← (domain_for_cell p st idx (idx / st.n) (idx % st.n)).mapError
        SolveError.Core
      let pop := popcount64 dom
      if pop = 0 then Except.ok MrvScan.emptyDom
      else
        let best := match best with
          | none => some (idx, dom, pop)
          | some (bi, bd, bp) =>
            if pop < bp then some (idx, dom, pop) else some (bi, bd, bp)
        if (match best with
            | some (_, _, bp) => bp == 1
            | none => false) then
          Except.ok (MrvScan.done best)
        else mrvRescan p st rest best

/-- Function `choose_mrv_cell` of solver.rs.  Returns Ok(None) both when no
unassigned cell remains and when some unassigned cell has an empty domain
(the early return inside the rescan loop). -/
def choose_mrv_cell (p : Puzzle) (st : SState) :
    Except SolveError (SState × Option (Nat × Nat)) :=
  let n := st.n
  let a := n * n
  let cacheHit : Option (Nat × Nat) :=
    if st.mrv_valid ∧ ¬hasDirty st then
      let min_idx := st.mrv_min_cell
      if st.grid.getD min_idx 0 = 0 then
        match domain_for_cell p st min_idx (min_idx / n) (min_idx % n) with
        | Except.ok dom => if popcount64 dom > 0 then some (min_idx, dom) else none
        | Except.error _ => none
      else none
    else none
  match cacheHit with
  | some r => Except.ok (st, some r)
  | none => do
    match ← mrvRescan p st (List.range a) none with
    | MrvScan.emptyDom => Except.ok (st, none)
    | MrvScan.done none => Except.ok (st, none)
    | MrvScan.done (some (idx, dom, pop)) =>
      let st := { st with
        mrv_min_cell := idx
        mrv_min_count := pop
        mrv_valid := true
        mrv_dirty := List.replicate st.mrv_dirty.length false }
      Except.ok (st, some (idx, dom))

/-- Function `cage_satisfied` of solver.rs, on the list of assigned i32
values in cage cell order. -/
def cage_satisfied (cage : Cage) (values : List Int) : Bool :=
  match cage.op with
  | Op.Eq => values.length == 1 && values.getD 0 0 == cage.target
  | Op.Add => values.sum == cage.target
  | Op.Mul => values.prod == cage.target
  | Op.Sub =>
    values.length == 2 && |values.getD 0 0 - values.getD 1 0| == cage.target
  | Op.Div =>
    if values.length ≠ 2 then false
    else
      let a := max (values.getD 0 0) (values.getD 1 0)
      let b := min (values.getD 0 0) (values.getD 1 0)
      b != 0 && a % b == 0 && a / b == cage.target

/-- Pair test of `two_cell_div_feasible` (solver.rs): larger equals smaller
times target, computed with saturating i32 multiplication. -/
def div_ok_pair (target : Int) (x y : Nat) : Bool :=
  let nd := if x ≥ y then (x, y) else (y, x)
  nd.2 != 0 && (nd.1 : Int) == satMul (nd.2 : Int) target

/-- Function `two_cell_sub_feasible` of solver.rs. -/
def two_cell_sub_feasible (p : Puzzle) (st : SState) (a b : Nat)
    (target : Int) : Except CoreError Bool :=
  let n := st.n
  let av := st.grid.getD a 0
  let bv := st.grid.getD b 0
  if av = 0 ∧ bv = 0 then Except.ok true
  else if bv = 0 then do
    let dom ← domain_for_cell p st b (b / n) (b % n)
    Except.ok ((domainBits dom).any
      (fun y => |(av : Int) - (y : Int)| == target))
  else if av = 0 then do
    let dom ← domain_for_cell p st a (a / n) (a % n)
    Except.ok ((domainBits dom).any
      (fun x => |(x : Int) - (bv : Int)| == target))
  else Except.ok (|(av : Int) - (bv : Int)| == target)

/-- Function `two_cell_div_feasible` of solver.rs. -/
def two_cell_div_feasible (p : Puzzle) (st : SState) (a b : Nat)
    (target : Int) : Except CoreError Bool :=
  let n := st.n
  let av := st.grid.getD a 0
  let bv := st.grid.getD b 0
  if av = 0 ∧ bv = 0 then Except.ok true
  else if bv = 0 then do
    let dom ← domain_for_cell p st b (b / n) (b % n)
    Except.ok ((domainBits dom).any (fun y => div_ok_pair target av y))
  else if av = 0 then do
    let dom ← domain_for_cell p st a (a / n) (a % n)
    Except.ok ((domainBits dom).any (fun x => div_ok_pair target x bv))
  else Except.ok (div_ok_pair target av bv)

/-- Function `cage_feasible` of solver.rs: the on-the-fly feasibility check
run after every assignment, independent of the deduction tier. -/
def cage_feasible (p : Puzzle) (rules : Ruleset) (st : SState) (cage : Cage) :
    Except SolveError Bool := do
  let n := st.n
  let assigned : List Int := cage.cells.filterMap (fun cell =>
    let v := st.grid.getD cell 0
    if v ≠ 0 then some (v : Int) else none)
  let unassigned : List Nat :=
    cage.cells.filter (fun cell => st.grid.getD cell 0 = 0)
  match cage.op with
  | Op.Eq =>
    if cage.cells.length ≠ 1 then
      throw (SolveError.Core (CoreError.InvalidOpForCageSize cage.op
        cage.cells.length))
    else if assigned.length = 0 then pure true
    else pure (assigned.getD 0 0 == cage.target)
  | _ => do
    if (cage.op = Op.Sub ∨ cage.op = Op.Div) ∧ rules.sub_div_two_cell_only
        ∧ cage.cells.length ≠ 2 then
      throw (SolveError.Core CoreError.SubDivMustBeTwoCell)
    if unassigned.length = 0 then
      pure (cage_satisfied cage assigned)
    else
      match cage.op with
      | Op.Sub =>
        (two_cell_sub_feasible p st (cage.cells.getD 0 0) (cage.cells.getD 1 0)
          cage.target).mapError SolveError.Core
      | Op.Div =>
        (two_cell_div_feasible p st (cage.cells.getD 0 0) (cage.cells.getD 1 0)
          cage.target).mapError SolveError.Core
      | Op.Add => do
        let sum_assigned := assigned.sum
        if sum_assigned > cage.target then pure false
        else do
          let mm ← unassigned.foldlM
            (fun (acc : Int × Int) idx => do
              let dom ← (domain_for_cell p st idx (idx / n) (idx % n)).mapError
                SolveError.Core
              match domain_min_max dom with
              | none => throw (SolveError.Core CoreError.TargetMustBeNonZero)
              | some (mn, mx) => pure (acc.1 + (mn : Int), acc.2 + (mx : Int)))
            ((0 : Int), (0 : Int))
          pure (decide (sum_assigned + mm.1 ≤ cage.target)
            && decide (cage.target ≤ sum_assigned + mm.2))
      | Op.Mul => do
        let prod_assigned := assigned.foldl (fun acc v => satMul acc v) 1
        if prod_assigned = 0 ∨ cage.target % prod_assigned ≠ 0 then pure false
        else do
          let mm ← unassigned.foldlM
            (fun (acc : Int × Int) idx => do
              let dom ← (domain_for_cell p st idx (idx / n) (idx % n)).mapError
                SolveError.Core
              match domain_min_max dom with
              | none => throw (SolveError.Core CoreError.TargetMustBeNonZero)
              | some (mn, mx) =>
                pure (satMul acc.1 (mn : Int), satMul acc.2 (mx : Int)))
            ((1 : Int), (1 : Int))
          pure (decide (satMul prod_assigned mm.1 ≤ cage.target)
            && decide (cage.target ≤ satMul prod_assigned mm.2))
      | _ => pure true

/-- Function `cages_still_feasible` of solver.rs: check the cage containing
the changed cell. -/
def cages_still_feasible (p : Puzzle) (rules : Ruleset) (st : SState)
    (changed_cell : Nat) : Except SolveError Bool := do
  let cage := p.cages.getD (st.cage_of_cell.getD changed_cell 0) dummyCage
  let f ← cage_feasible p rules st cage
  if f = false then pure false else pure true

/-! ## kenken-solver: solver.rs, tuple enumeration -/

/-- Function `cage_tuple_satisfies` of solver.rs: exact sum or product (i32)
for Add/Mul, false for every other op. -/
def cage_tuple_satisfies (cage : Cage) (values : List Nat) : Bool :=
  match cage.op with
  | Op.Add => (values.map (fun (v : Nat) => (v : Int))).sum == cage.target
  | Op.Mul => (values.map (fun (v : Nat) => (v : Int))).prod == cage.target
  | _ => false

/-- Function `violates_in_cage_rowcol` of solver.rs: candidate v at position
pos clashes with an already chosen value in the same cage row or column. -/
def violates_in_cage_rowcol (coords : List (Nat × Nat)) (chosen : List Nat)
    (pos : Nat) (v : Nat) : Bool :=
  let rc := coords.getD pos (0, 0)
  (coords.zip chosen).any
    (fun pc => (pc.1.1 == rc.1 || pc.1.2 == rc.2) && pc.2 == v)

/-- Running per-position union update on a completed satisfying tuple. -/
def updatePerPos (per_pos chosen : List Nat) : List Nat :=
  per_pos.zipWith (fun pp v => pp ||| (1 <<< v)) chosen

/-- Union of the value bits of a tuple. -/
def orBitsOf (chosen : List Nat) : Nat :=
  chosen.foldl (fun m v => m ||| (1 <<< v)) 0

/-- Function `enumerate_cage_tuples` of solver.rs.  The source recurses on a
position into the cells slice; the embedding recurses on the remaining
suffix of the cells list (cellsRest), carrying the chosen prefix.  The
accumulator is (per_pos, any_mask). -/
def enumerate_cage_tuples (cage : Cage) (coords : List (Nat × Nat))
    (domains : List Nat) :
    (cellsRest : List Nat) → (chosen : List Nat) → List Nat × Nat →
      List Nat × Nat
  | [], chosen, acc =>
    if cage_tuple_satisfies cage chosen then
      (updatePerPos acc.1 chosen, acc.2 ||| orBitsOf chosen)
    else acc
  | idx :: rest, chosen, acc =>
    (domainBits (domains.getD idx 0)).foldl
      (fun acc v =>
        if violates_in_cage_rowcol coords chosen chosen.length v then acc
        else
          let chosen2 := chosen ++ [v]
          if cage.op = Op.Add then
            if (chosen2.map (fun (x : Nat) => (x : Int))).sum ≤ cage.target then
              enumerate_cage_tuples cage coords domains rest chosen2 acc
            else acc
          else if cage.op = Op.Mul then
            let prod := chosen2.foldl (fun (pr : Int) (x : Nat) => satMul pr (x : Int)) 1
            if prod ≠ 0 ∧ cage.target % prod = 0 then
              enumerate_cage_tuples cage coords domains rest chosen2 acc
            else acc
          else
            enumerate_cage_tuples cage coords domains rest chosen2 acc)
      acc

/-- Accumulator of the Hard-tier enumeration (per_pos, any_mask, must_row,
must_col as intersections-so-far, found flag). -/
structure MustAcc where
  per_pos : List Nat
  any_mask : Nat
  must_row : List (Option Nat)
  must_col : List (Option Nat)
  found : Bool
deriving DecidableEq, Repr

/-- Per-tuple must-mask update of `enumerate_cage_tuples_collect`: compute
row_bits/col_bits of the tuple and intersect them into must_row/must_col. -/
def mustUpdate (n : Nat) (coords : List (Nat × Nat)) (chosen : List Nat)
    (acc : MustAcc) : MustAcc :=
  let row_bits := (coords.zip chosen).foldl
    (fun rb rcv => rb.set rcv.1.1 ((rb.getD rcv.1.1 0) ||| (1 <<< rcv.2)))
    (List.replicate n 0)
  let col_bits := (coords.zip chosen).foldl
    (fun cb rcv => cb.set rcv.1.2 ((cb.getD rcv.1.2 0) ||| (1 <<< rcv.2)))
    (List.replicate n 0)
  { acc with
    must_row := acc.must_row.zipWith
      (fun m rb => if rb ≠ 0 then
          some (match m with | none => rb | some mm => mm &&& rb)
        else m)
      row_bits
    must_col := acc.must_col.zipWith
      (fun m cb => if cb ≠ 0 then
          some (match m with | none => cb | some mm => mm &&& cb)
        else m)
      col_bits }

/-- Function `enumerate_cage_tuples_collect` of solver.rs (the Hard-tier
variant that also gathers must_row/must_col). -/
def enumerate_cage_tuples_collect (n : Nat) (cage : Cage)
    (coords : List (Nat × Nat)) (domains : List Nat) :
    (cellsRest : List Nat) → (chosen : List Nat) → MustAcc → MustAcc
  | [], chosen, acc =>
    if cage_tuple_satisfies cage chosen then
      mustUpdate n coords chosen
        { acc with
          found := true
          per_pos := updatePerPos acc.per_pos chosen
          any_mask := acc.any_mask ||| orBitsOf chosen }
    else acc
  | idx :: rest, chosen, acc =>
    (domainBits (domains.getD idx 0)).foldl
      (fun acc v =>
        if violates_in_cage_rowcol coords chosen chosen.length v then acc
        else
          let chosen2 := chosen ++ [v]
          if cage.op = Op.Add then
            if (chosen2.map (fun (x : Nat) => (x : Int))).sum ≤ cage.target then
              enumerate_cage_tuples_collect n cage coords domains rest chosen2 acc
            else acc
          else if cage.op = Op.Mul then
            let prod := chosen2.foldl (fun (pr : Int) (x : Nat) => satMul pr (x : Int)) 1
            if prod ≠ 0 ∧ cage.target % prod = 0 then
              enumerate_cage_tuples_collect n cage coords domains rest chosen2 acc
            else acc
          else
            enumerate_cage_tuples_collect n cage coords domains rest chosen2 acc)
      acc

/-- Function `enumerate_cage_tuples_with_must` of solver.rs: run the
collecting enumeration and unwrap the must masks with unwrap_or(0). -/
def enumerate_cage_tuples_with_must (n : Nat) (cage : Cage)
    (cells : List Nat) (coords : List (Nat × Nat)) (domains : List Nat) :
    List Nat × Nat × List Nat × List Nat × Bool :=
  let acc := enumerate_cage_tuples_collect n cage coords domains cells []
    { per_pos := List.replicate cells.length 0
      any_mask := 0
      must_row := List.replicate n none
      must_col := List.replicate n none
      found := false }
  (acc.per_pos, acc.any_mask, acc.must_row.map (fun m => m.getD 0),
    acc.must_col.map (fun m => m.getD 0), acc.found)

/-! ## kenken-solver: solver.rs, cage deduction and propagation -/

/-- Function `all_cells_fully_assigned` of solver.rs. -/
def all_cells_fully_assigned (cells domains : List Nat) : Bool :=
  cells.all (fun idx => popcount64 (domains.getD idx 0) == 1)

/-- Function `compute_any_mask_from_assigned` of solver.rs. -/
def compute_any_mask_from_assigned (cells domains : List Nat) : Nat :=
  cells.foldl (fun m idx => m ||| domains.getD idx 0) 0

/-- Hash used by `compute_cache_key`: wrapping fold h*31+x over u64. -/
def wrapHash (l : List Nat) : Nat :=
  l.foldl (fun h x => (h * 31 + x) % 2 ^ 64) 0

/-- Function `compute_cache_key` of solver.rs. -/
def compute_cache_key (cage : Cage) (cells domains : List Nat)
    (tier : DeductionTier) : CacheTupleKey :=
  { op_byte := match cage.op with
      | Op.Add => 0 | Op.Sub => 1 | Op.Div => 2 | Op.Mul => 3 | Op.Eq => 4
    tier_byte := match tier with
      | DeductionTier.None => 0 | DeductionTier.Easy => 1
      | DeductionTier.Normal => 2 | DeductionTier.Hard => 3
    target := cage.target
    cells_len := cells.length
    cells_hash := wrapHash cells
    domain_hash := wrapHash (cells.map (fun c => domains.getD c 0)) }

/-- Lookup in the modelled tuple cache (HashMap::get). -/
def lookupCache (cacheL : List (CacheTupleKey × CachedTupleResult))
    (k : CacheTupleKey) : Option CachedTupleResult :=
  (cacheL.find? (fun e => e.1 == k)).map (fun e => e.2)

/-- Rust release semantics of `1u64 << (t as u32)`: cast the i32 to u32 with
wrap-around, then shift with the amount masked modulo 64. -/
def shl1_u32cast (t : Int) : Nat := 1 <<< ((t % 2 ^ 32).toNat % 64)

/-- Must-mask elimination over rows for the Sub/Div branch (entries are
Option, a None is skipped, a Some 0 is processed as a no-op and). -/
def applyMustRow (n : Nat) (in_cage : List Bool) (domains : List Nat)
    (must_row : List (Option Nat)) : List Nat :=
  (List.range n).foldl
    (fun doms r =>
      match must_row.getD r none with
      | none => doms
      | some must =>
        (List.range n).foldl
          (fun doms c =>
            let idx := r * n + c
            if in_cage.getD idx false then doms
            else doms.set idx ((doms.getD idx 0) &&& u64not must))
          doms)
    domains

/-- Must-mask elimination over columns for the Sub/Div branch. -/
def applyMustCol (n : Nat) (in_cage : List Bool) (domains : List Nat)
    (must_col : List (Option Nat)) : List Nat :=
  (List.range n).foldl
    (fun doms c =>
      match must_col.getD c none with
      | none => doms
      | some must =>
        (List.range n).foldl
          (fun doms r =>
            let idx := r * n + c
            if in_cage.getD idx false then doms
            else doms.set idx ((doms.getD idx 0) &&& u64not must))
          doms)
    domains

/-- Must-mask elimination over rows for the Add/Mul branch (entries are
plain masks, a 0 is skipped by the continue). -/
def applyMustRowN (n : Nat) (in_cage : List Bool) (domains : List Nat)
    (must_row : List Nat) : List Nat :=
  (List.range n).foldl
    (fun doms r =>
      let must := must_row.getD r 0
      if must = 0 then doms
      else
        (List.range n).foldl
          (fun doms c =>
            let idx := r * n + c
            if in_cage.getD idx false then doms
            else doms.set idx ((doms.getD idx 0) &&& u64not must))
          doms)
    domains

/-- Must-mask elimination over columns for the Add/Mul branch. -/
def applyMustColN (n : Nat) (in_cage : List Bool) (domains : List Nat)
    (must_col : List Nat) : List Nat :=
  (List.range n).foldl
    (fun doms c =>
      let must := must_col.getD c 0
      if must = 0 then doms
      else
        (List.range n).foldl
          (fun doms r =>
            let idx := r * n + c
            if in_cage.getD idx false then doms
            else doms.set idx ((doms.getD idx 0) &&& u64not must))
          doms)
    domains

/-- Accumulator of the Sub/Div pair enumeration in apply_cage_deduction. -/
structure PairAcc where
  found : Bool
  a_ok : Nat
  b_ok : Nat
  must_row : List (Option Nat)
  must_col : List (Option Nat)
deriving DecidableEq, Repr

/-- Pair enumeration of the Sub/Div branch of `apply_cage_deduction`
(solver.rs): iterate both domains, keep satisfying ordered pairs, and at
Hard tier intersect per-pair row/column bits into the must masks. -/
def subDivPairScan (n : Nat) (cage : Cage) (tier : DeductionTier)
    (coords : List (Nat × Nat)) (a_dom b_dom : Nat) : PairAcc :=
  (domainBits a_dom).foldl
    (fun acc av =>
      (domainBits b_dom).foldl
        (fun acc bv =>
          let ok := match cage.op with
            | Op.Sub => |(av : Int) - (bv : Int)| == cage.target
            | Op.Div => div_ok_pair cage.target av bv
            | _ => false
          if ok then
            let acc := { acc with
              found := true
              a_ok := acc.a_ok ||| (1 <<< av)
              b_ok := acc.b_ok ||| (1 <<< bv) }
            if tier = DeductionTier.Hard then
              let macc := mustUpdate n coords [av, bv]
                { per_pos := [], any_mask := 0, must_row := acc.must_row,
                  must_col := acc.must_col, found := true }
              { acc with must_row := macc.must_row, must_col := macc.must_col }
            else acc
          else acc)
        acc)
    { found := false, a_ok := 0, b_ok := 0
      must_row := List.replicate n none, must_col := List.replicate n none }

/-- Function `apply_cage_deduction` of solver.rs (the non-bumpalo build).
The TIER 1.2 fast path for 2-cell Sub/Div decodes the singleton values as
trailing_zeros plus one, exactly as the source does. -/
def apply_cage_deduction (rules : Ruleset) (st : SState) (cage : Cage)
    (tier : DeductionTier) (domains : List Nat) :
    Except SolveError (SState × List Nat) :=
  let n := st.n
  let a := n * n
  let cells := cage.cells
  match cage.op with
  | Op.Eq =>
    let idx := cells.getD 0 0
    Except.ok (st,
      domains.set idx ((domains.getD idx 0) &&& shl1_u32cast cage.target))
  | Op.Sub | Op.Div =>
    if rules.sub_div_two_cell_only ∧ cells.length ≠ 2 then
      Except.error (SolveError.Core CoreError.SubDivMustBeTwoCell)
    else if cells.length = 2 then
      let a_idx := cells.getD 0 0
      let b_idx := cells.getD 1 0
      let a_dom := domains.getD a_idx 0
      let b_dom := domains.getD b_idx 0
      if tier ≠ DeductionTier.Hard ∧ popcount64 a_dom = 1
          ∧ popcount64 b_dom = 1 then
        let av := trailingZeros64 a_dom + 1
        let bv := trailingZeros64 b_dom + 1
        let ok := match cage.op with
          | Op.Sub => |(av : Int) - (bv : Int)| == cage.target
          | Op.Div => div_ok_pair cage.target av bv
          | _ => false
        if ok then Except.ok (st, domains)
        else Except.ok (st, (domains.set a_idx 0).set b_idx 0)
      else
        let coords := [(a_idx / n, a_idx % n), (b_idx / n, b_idx % n)]
        let acc := subDivPairScan n cage tier coords a_dom b_dom
        let domains := domains.set a_idx ((domains.getD a_idx 0) &&& acc.a_ok)
        let domains := domains.set b_idx ((domains.getD b_idx 0) &&& acc.b_ok)
        if tier = DeductionTier.Hard ∧ acc.found then
          let in_cage := ((List.replicate a false).set a_idx true).set b_idx true
          let domains := applyMustRow n in_cage domains acc.must_row
          let domains := applyMustCol n in_cage domains acc.must_col
          Except.ok (st, domains)
        else Except.ok (st, domains)
    else Except.ok (st, domains)
  | Op.Add | Op.Mul =>
    let coords := cells.map (fun idx => (idx / n, idx % n))
    let hard := tier = DeductionTier.Hard
    let res : SState × (List Nat × Nat × List Nat × List Nat × Bool) :=
      if hard then
        (st, enumerate_cage_tuples_with_must n cage cells coords domains)
      else if all_cells_fully_assigned cells domains then
        let any_mask := compute_any_mask_from_assigned cells domains
        (st, (List.replicate cells.length any_mask, any_mask,
          List.replicate n 0, List.replicate n 0, any_mask ≠ 0))
      else if n ≥ 6 then
        let key := compute_cache_key cage cells domains tier
        match lookupCache st.tuple_cache key with
        | some cached =>
          (st, (cached.per_pos, cached.any_mask,
            List.replicate n 0, List.replicate n 0, cached.any_mask ≠ 0))
        | none =>
          let pa := enumerate_cage_tuples cage coords domains cells []
            (List.replicate cells.length 0, 0)
          let st := { st with
            tuple_cache := (key, CachedTupleResult.mk pa.1 pa.2) :: st.tuple_cache }
          (st, (pa.1, pa.2, List.replicate n 0, List.replicate n 0, pa.2 ≠ 0))
      else
        let pa := enumerate_cage_tuples cage coords domains cells []
          (List.replicate cells.length 0, 0)
        (st, (pa.1, pa.2, List.replicate n 0, List.replicate n 0, pa.2 ≠ 0))
    let st := res.1
    let per_pos := res.2.1
    let any_mask := res.2.2.1
    let must_row := res.2.2.2.1
    let must_col := res.2.2.2.2.1
    let found := res.2.2.2.2.2
    let domains :=
      if tier = DeductionTier.Easy then
        cells.foldl
          (fun doms idx => doms.set idx ((doms.getD idx 0) &&& any_mask))
          domains
      else
        (cells.zip per_pos).foldl
          (fun doms ip => doms.set ip.1 ((doms.getD ip.1 0) &&& ip.2))
          domains
    if hard ∧ found then
      let in_cage := cells.foldl
        (fun ic idx => ic.set idx true) (List.replicate a false)
      let domains := applyMustRowN n in_cage domains must_row
      let domains := applyMustColN n in_cage domains must_col
      Except.ok (st, domains)
    else Except.ok (st, domains)

/-- Function `propagate` of solver.rs: rebuild baseline domains from the
masks, apply every cage deduction, fail if an unassigned cell ends empty,
assign singleton domains (recording them in forced), and repeat to a fixed
point.  Each repeat places at least one cell, so fuel n*n+1 suffices. -/
def propagate (p : Puzzle) (rules : Ruleset) (tier : DeductionTier) :
    Nat → SState → List (Nat × Nat) →
      Except SolveError (SState × List (Nat × Nat) × Bool)
  | 0, _, _ => Except.error SolveError.FuelExhausted
  | fuel + 1, st, forced => do
    let n := st.n
    let a := n * n
    let domains := (List.range a).map (fun idx =>
      if st.grid.getD idx 0 ≠ 0 then 1 <<< st.grid.getD idx 0
      else full_domain n &&& u64not (st.row_mask.getD (idx / n) 0)
        &&& u64not (st.col_mask.getD (idx % n) 0))
    let sd ← p.cages.foldlM
      (fun (acc : SState × List Nat) cage =>
        apply_cage_deduction rules acc.1 cage tier acc.2)
      (st, domains)
    let st := sd.1
    let domains := sd.2
    if (List.range a).any
        (fun idx => st.grid.getD idx 0 == 0 && domains.getD idx 0 == 0) then
      Except.ok (st, forced, false)
    else
      let step := (List.range a).foldl
        (fun (acc : SState × List (Nat × Nat) × Bool) idx =>
          if acc.1.grid.getD idx 0 ≠ 0 then acc
          else if popcount64 (domains.getD idx 0) = 1 then
            let val := trailingZeros64 (domains.getD idx 0)
            (place acc.1 (idx / n) (idx % n) val,
              acc.2.1 ++ [(idx, val)], true)
          else acc)
        (st, forced, false)
      if step.2.2 then propagate p rules tier fuel step.1 step.2.1
      else Except.ok (st, forced, true)

/-! ## kenken-solver: solver.rs, backtracking search -/

/-- Result bundle of one backtracking call: state, solution count, first
solution, statistics. -/
structure BT where
  st : SState
  count : Nat
  first : Option Solution
  stats : SolveStats
deriving DecidableEq, Repr

/-- Value loop of `backtrack` (solver.rs): iterate the set bits of the MRV
domain ascending, skip bit 0, place, check cage feasibility, recurse
through the supplied continuation, unplace, and stop once the count
reaches the limit. -/
def btLoop (p : Puzzle) (rules : Ruleset) (limit cell_idx row col : Nat)
    (recur : SState → Nat → Option Solution → SolveStats →
      Except SolveError BT) :
    List Nat → Nat → SState → Nat → Option Solution → SolveStats →
      Except SolveError BT
  | [], _tried, st, count, first, stats => Except.ok ⟨st, count, first, stats⟩
  | d :: rest, tried, st, count, first, stats =>
    if d = 0 then
      btLoop p rules limit cell_idx row col recur rest tried st count first stats
    else
      let tried := tried + 1
      let stats := if tried > 1 then { stats with backtracked := true } else stats
      let st := place st row col d
      let stats := { stats with assignments := stats.assignments + 1 }
      do
        let feas ← cages_still_feasible p rules st cell_idx
        let r ← if feas then recur st count first stats
          else pure (BT.mk st count first stats)
        let st := unplace r.st row col d
        if r.count ≥ limit then Except.ok ⟨st, r.count, r.first, r.stats⟩
        else
          btLoop p rules limit cell_idx row col recur rest tried st r.count
            r.first r.stats

/-- Function `backtrack` of solver.rs (the deduction-free search).  Note
that choose_mrv_cell returning None is counted as a solution, whether it
arose from a fully assigned grid or from an unassigned cell with an empty
domain.  Depth grows by one placement per level, so fuel n*n+1 suffices. -/
def backtrack (p : Puzzle) (rules : Ruleset) (limit : Nat) :
    Nat → SState → Nat → Option Solution → Nat → SolveStats →
      Except SolveError BT
  | 0, _, _, _, _, _ => Except.error SolveError.FuelExhausted
  | fuel + 1, st, count, first, depth, stats =>
    if count ≥ limit then Except.ok ⟨st, count, first, stats⟩
    else
      let stats := { stats with
        nodes_visited := stats.nodes_visited + 1
        max_depth := max stats.max_depth depth }
      do
        let sm ← choose_mrv_cell p st
        match sm.2 with
        | none =>
          let count := count + 1
          let first := if first.isNone then some ⟨sm.1.n, sm.1.grid⟩ else first
          Except.ok ⟨sm.1, count, first, stats⟩
        | some (cell_idx, domain) =>
          let row := cell_idx / sm.1.n
          let col := cell_idx % sm.1.n
          btLoop p rules limit cell_idx row col
            (fun st count first stats =>
              backtrack p rules limit fuel st count first (depth + 1) stats)
            (domainBits domain) 0 sm.1 count first stats

/-- Value loop of `backtrack_deducing` (solver.rs): like btLoop but running
the propagator after the on-the-fly cage check, invalidating the MRV cache
when propagation ran, and undoing the forced assignments in reverse after
the recursive call returns. -/
def bdLoop (p : Puzzle) (rules : Ruleset) (tier : DeductionTier)
    (limit cell_idx row col : Nat)
    (recur : SState → Nat → Option Solution → SolveStats →
      Except SolveError BT) :
    List Nat → Nat → SState → Nat → Option Solution → SolveStats →
      Except SolveError BT
  | [], _tried, st, count, first, stats => Except.ok ⟨st, count, first, stats⟩
  | d :: rest, tried, st, count, first, stats =>
    if d = 0 then
      bdLoop p rules tier limit cell_idx row col recur rest tried st count
        first stats
    else
      let tried := tried + 1
      let stats := if tried > 1 then { stats with backtracked := true } else stats
      let st := place st row col d
      let stats := { stats with assignments := stats.assignments + 1 }
      do
        let f1 ← cages_still_feasible p rules st cell_idx
        let sff ←
          if f1 = false then
            pure (st, ([] : List (Nat × Nat)), false)
          else if tier = DeductionTier.None then
            pure (st, ([] : List (Nat × Nat)), true)
          else do
            let pr ← propagate p rules tier (st.n * st.n + 1) st []
            pure pr
        let st := sff.1
        let forced := sff.2.1
        let feasible := sff.2.2
        let st := if feasible ∧ tier ≠ DeductionTier.None then
            { st with mrv_valid := false }
          else st
        let r ← if feasible then recur st count first stats
          else pure (BT.mk st count first stats)
        let st := forced.reverse.foldl
          (fun st iv => unplace st (iv.1 / st.n) (iv.1 % st.n) iv.2) r.st
        let st := unplace st row col d
        if r.count ≥ limit then Except.ok ⟨st, r.count, r.first, r.stats⟩
        else
          bdLoop p rules tier limit cell_idx row col recur rest tried st
            r.count r.first r.stats

/-- Function `backtrack_deducing` of solver.rs. -/
def backtrack_deducing (p : Puzzle) (rules : Ruleset) (tier : DeductionTier)
    (limit : Nat) :
    Nat → SState → Nat → Option Solution → Nat → SolveStats →
      Except SolveError BT
  | 0, _, _, _, _, _ => Except.error SolveError.FuelExhausted
  | fuel + 1, st, count, first, depth, stats =>
    if count ≥ limit then Except.ok ⟨st, count, first, stats⟩
    else
      let stats := { stats with
        nodes_visited := stats.nodes_visited + 1
        max_depth := max stats.max_depth depth }
      do
        let sm ← choose_mrv_cell p st
        match sm.2 with
        | none =>
          let count := count + 1
          let first := if first.isNone then some ⟨sm.1.n, sm.1.grid⟩ else first
          Except.ok ⟨sm.1, count, first, stats⟩
        | some (cell_idx, domain) =>
          let row := cell_idx / sm.1.n
          let col := cell_idx % sm.1.n
          bdLoop p rules tier limit cell_idx row col
            (fun st count first stats =>
              backtrack_deducing p rules tier limit fuel st count first
                (depth + 1) stats)
            (domainBits domain) 0 sm.1 count first stats

/-! ## kenken-solver: solver.rs, entry points -/

/-- Fresh search state (the State construction in search_with_stats and
search_with_stats_deducing); uncovered cells keep the usize::MAX marker. -/
def initState (p : Puzzle) : SState :=
  let n := p.n
  let a := n * n
  { n := n
    grid := List.replicate a 0
    row_mask := List.replicate n 0
    col_mask := List.replicate n 0
    cage_of_cell := p.cages.enum.foldl
      (fun cof ic => ic.2.cells.foldl (fun cof cell => cof.set cell ic.1) cof)
      (List.replicate a (2 ^ 64 - 1))
    tuple_cache := []
    mrv_min_cell := 0
    mrv_min_count := n + 1
    mrv_valid := false
    mrv_dirty := List.replicate a false }

/-- Function `search_with_stats` of solver.rs: validate, build state, run
the deduction-free backtracking.  Returns (count, first, stats). -/
def search_with_stats (p : Puzzle) (rules : Ruleset) (limit : Nat) :
    Except SolveError (Nat × Option Solution × SolveStats) := do
  (p.validate rules).mapError SolveError.Core
  let st := initState p
  let r ← backtrack p rules limit (p.n * p.n + 1) st 0 none 0
    SolveStats.default
  Except.ok (r.count, r.first, r.stats)

/-- Function `search_with_stats_deducing` of solver.rs: validate, build
state, propagate once at the root (unless tier is None) and return 0 on
root contradiction, then run the deducing backtracking. -/
def search_with_stats_deducing (p : Puzzle) (rules : Ruleset)
    (tier : DeductionTier) (limit : Nat) :
    Except SolveError (Nat × Option Solution × SolveStats) := do
  (p.validate rules).mapError SolveError.Core
  let st := initState p
  let sr ←
    if tier ≠ DeductionTier.None then do
      let pr ← propagate p rules tier (p.n * p.n + 1) st []
      pure (pr.1, pr.2.2)
    else pure (st, true)
  if sr.2 = false then Except.ok (0, none, SolveStats.default)
  else
    let st := { sr.1 with mrv_valid := false }
    let r ← backtrack_deducing p rules tier limit (p.n * p.n + 1) st 0 none 0
      SolveStats.default
    Except.ok (r.count, r.first, r.stats)

/-- Function `solve_one` of solver.rs. -/
def solve_one (p : Puzzle) (rules : Ruleset) :
    Except SolveError (Option Solution) := do
  let r ← search_with_stats p rules 1
  Except.ok (if r.1 = 0 then none else r.2.1)

/-- Function `solve_one_with_stats` of solver.rs. -/
def solve_one_with_stats (p : Puzzle) (rules : Ruleset) :
    Except SolveError (Option Solution × SolveStats) := do
  let r ← search_with_stats p rules 1
  Except.ok ((if r.1 = 0 then none else r.2.1), r.2.2)

/-- Function `solve_one_with_deductions` of solver.rs. -/
def solve_one_with_deductions (p : Puzzle) (rules : Ruleset)
    (tier : DeductionTier) : Except SolveError (Option Solution) := do
  let r ← search_with_stats_deducing p rules tier 1
  Except.ok (if r.1 = 0 then none else r.2.1)

/-- Function `count_solutions_up_to` of solver.rs. -/
def count_solutions_up_to (p : Puzzle) (rules : Ruleset) (limit : Nat) :
    Except SolveError Nat :=
  if limit = 0 then Except.ok 0
  else do
    let r ← search_with_stats p rules limit
    Except.ok r.1

/-- Function `count_solutions_up_to_with_deductions` of solver.rs. -/
def count_solutions_up_to_with_deductions (p : Puzzle) (rules : Ruleset)
    (tier : DeductionTier) (limit : Nat) : Except SolveError Nat :=
  if limit = 0 then Except.ok 0
  else do
    let r ← search_with_stats_deducing p rules tier limit
    Except.ok r.1

/-- Function `classify_tier_required` of solver.rs: try Easy, Normal, Hard
with limit 1; the first tier that finds a solution without branching wins;
otherwise solve once more at Hard and report tier_required none. -/
def classify_tier_required (p : Puzzle) (rules : Ruleset) :
    Except SolveError TierRequiredResult := do
  let re ← search_with_stats_deducing p rules DeductionTier.Easy 1
  if re.1 > 0 ∧ re.2.2.backtracked = false then
    pure ⟨some DeductionTier.Easy, re.2.2⟩
  else do
    let rn ← search_with_stats_deducing p rules DeductionTier.Normal 1
    if rn.1 > 0 ∧ rn.2.2.backtracked = false then
      pure ⟨some DeductionTier.Normal, rn.2.2⟩
    else do
      let rh ← search_with_stats_deducing p rules DeductionTier.Hard 1
      if rh.1 > 0 ∧ rh.2.2.backtracked = false then
        pure ⟨some DeductionTier.Hard, rh.2.2⟩
      else do
        let rf ← search_with_stats_deducing p rules DeductionTier.Hard 1
        pure ⟨none, rf.2.2⟩

/-! ## kenken-gen: generator.rs

The generator consumes a ChaCha20 RNG stream (shuffles and f64-probability
coin flips) and a DLX-backed Latin square sampler.  Neither is shallowly
embeddable (stream cipher state, floating point), so every random or
external decision is drawn from an explicit oracle, indexed by a draw
counter that is threaded exactly where the source threads its RNG.  All
theorems below quantify over every oracle, hence over every possible
stream of decisions the real RNG could produce. -/

/-- GenError (kenken-gen/src/lib.rs). -/
inductive GenError
  | Core (e : CoreError)
  | Solve (e : SolveError)
  | DlxRequired
  | AttemptsExhausted (attempts : Nat)
deriving DecidableEq, Repr

/-- GenerateConfig (kenken-gen/src/generator.rs), restricted to the fields
the `generate` path consumes directly; `domino_probability` only
parameterises the RNG-driven partition and `target_difficulty` with its
tolerance is only read by generate_with_stats, so they live behind the
oracle / are omitted. -/
structure GenerateConfig where
  n : Nat
  seed : Nat
  rules : Ruleset
  tier : DeductionTier
  max_attempts : Nat
deriving DecidableEq, Repr

/-- GeneratedPuzzle (generator.rs). -/
structure GeneratedPuzzle where
  puzzle : Puzzle
  solution : List Nat
deriving DecidableEq, Repr

/-- Oracle abstracting the generator's random/external inputs:
`latin` stands for latin_solution_seeded keyed by the attempt seed;
`partitionChoice` for random_cage_partition (which can fail, returning
None); `opIndex` for the shuffle-then-take-head op selection of a 2-cell
cage (reduced modulo the ops list length, so exactly the elements of the
list are reachable); `addCoin` for the random_bool(0.55) Add/Mul coin of a
larger cage. -/
structure GenOracle where
  latin : Nat → Except GenError (List Nat)
  partitionChoice : Nat → Option (List (List Nat))
  opIndex : Nat → Nat
  addCoin : Nat → Bool

/-- The golden-ratio constant 0x9E3779B97F4A7C15 used to derive per-attempt
seeds. -/
def goldenGamma : Nat := 0x9E3779B97F4A7C15

/-- One cage of `assign_ops_and_targets` (generator.rs): compute the cage
values from the known solution and pick op and target.  Notes kept from
the source: `is_multiple_of` is `x % y = 0` (Lean's mod-zero convention
makes the y = 0 case agree with Rust's); Rust would panic on the `num /
den` division when den = 0, while Nat division yields target 0, which the
subsequent validation rejects — on neither side does generate return Ok. -/
def assignCage (oracle : GenOracle) (rules : Ruleset) (solution : List Nat)
    (ctr : Nat) (cells : List Nat) : Cage × Nat :=
  let values := cells.map (fun c => solution.getD c 0)
  match cells.length with
  | 1 => (⟨cells, Op.Eq, (values.getD 0 0 : Int)⟩, ctr)
  | 2 =>
    let a := values.getD 0 0
    let b := values.getD 1 0
    let ops := [Op.Add, Op.Mul] ++
      (if rules.sub_div_two_cell_only then
        [Op.Sub] ++ (if a % b = 0 ∨ b % a = 0 then [Op.Div] else [])
      else [])
    let chosen := ops.getD (oracle.opIndex ctr % ops.length) Op.Add
    let target : Int := match chosen with
      | Op.Add => (a : Int) + (b : Int)
      | Op.Mul => (a : Int) * (b : Int)
      | Op.Sub => |(a : Int) - (b : Int)|
      | Op.Div =>
        let nd := if a ≥ b then (a, b) else (b, a)
        ((nd.1 / nd.2 : Nat) : Int)
      | Op.Eq => 0
    (⟨cells, chosen, target⟩, ctr + 1)
  | _ =>
    let op := if oracle.addCoin ctr then Op.Add else Op.Mul
    let target : Int := match op with
      | Op.Add => (values.map (fun (v : Nat) => (v : Int))).sum
      | _ => values.foldl (fun (acc : Int) (v : Nat) => acc * (v : Int)) 1
    (⟨cells, op, target⟩, ctr + 1)

/-- Function `assign_ops_and_targets` of generator.rs: build all cages from
the partition and the known solution, then validate the puzzle. -/
def assign_ops_and_targets (oracle : GenOracle) (n : Nat)
    (solution : List Nat) (cagesCells : List (List Nat)) (rules : Ruleset)
    (ctr : Nat) : Except GenError (Puzzle × Nat) :=
  if solution.length ≠ n * n then Except.error (GenError.AttemptsExhausted 1)
  else
    let oc := cagesCells.foldl
      (fun (acc : List Cage × Nat) cells =>
        let cc := assignCage oracle rules solution acc.2 cells
        (acc.1 ++ [cc.1], cc.2))
      ([], ctr)
    let puzzle : Puzzle := ⟨n, oc.1⟩
    match puzzle.validate rules with
    | Except.error e => Except.error (GenError.Core e)
    | Except.ok _ => Except.ok (puzzle, oc.2)

/-- Attempt loop of `generate` (generator.rs): per attempt derive the
attempt seed, sample a Latin square, partition (skip the attempt on
failure), assign ops and targets, and accept iff the solver counts exactly
one solution with limit 2 at the configured tier.  Fuel equals the number
of remaining attempts. -/
def genLoop (oracle : GenOracle) (cfg : GenerateConfig) :
    Nat → Nat → Nat → Except GenError GeneratedPuzzle
  | 0, _, _ => Except.error (GenError.AttemptsExhausted cfg.max_attempts)
  | fuel + 1, attempt, ctr => do
    let attempt_seed := cfg.seed ^^^ ((attempt * goldenGamma) % 2 ^ 64)
    let solution ← oracle.latin attempt_seed
    match oracle.partitionChoice ctr with
    | none => genLoop oracle cfg fuel (attempt + 1) (ctr + 1)
    | some partition => do
      let pc ← assign_ops_and_targets oracle cfg.n solution partition
        cfg.rules (ctr + 1)
      let count ← (count_solutions_up_to_with_deductions pc.1 cfg.rules
        cfg.tier 2).mapError GenError.Solve
      if count = 1 then Except.ok ⟨pc.1, solution⟩
      else genLoop oracle cfg fuel (attempt + 1) pc.2

/-- Function `generate` of generator.rs. -/
def generate (oracle : GenOracle) (cfg : GenerateConfig) :
    Except GenError GeneratedPuzzle :=
  genLoop oracle cfg cfg.max_attempts 0 0

/-! ## Concrete puzzles used by the claim theorems -/

/-- A 2x2 puzzle of four Eq singletons with targets 1,1,2,2: structurally
valid, but the targets are contradictory (two equal digits pinned in row
0), so it has no solution. -/
def pEq1122 : Puzzle :=
  ⟨2, [⟨[0], Op.Eq, 1⟩, ⟨[1], Op.Eq, 1⟩, ⟨[2], Op.Eq, 2⟩, ⟨[3], Op.Eq, 2⟩]⟩

/-- A 2x2 puzzle with a 2-cell Div cage of target 2 on row 0 and a 2-cell
Add cage of target 3 on row 1; its two true solutions are [1,2,2,1] and
[2,1,1,2]. -/
def pDiv2 : Puzzle := ⟨2, [⟨[0, 1], Op.Div, 2⟩, ⟨[2, 3], Op.Add, 3⟩]⟩

/-- A 2x2 puzzle whose first cage demands a row sum of 5, impossible for
digits from 1..2: propagation refutes it at the root without branching. -/
def pAdd5 : Puzzle := ⟨2, [⟨[0, 1], Op.Add, 5⟩, ⟨[2, 3], Op.Add, 3⟩]⟩

/-- A valid 2x2 puzzle of four Eq singletons pinning the Latin square
[1,2,2,1] (spec scenario 2). -/
def pEq1221 : Puzzle :=
  ⟨2, [⟨[0], Op.Eq, 1⟩, ⟨[1], Op.Eq, 2⟩, ⟨[2], Op.Eq, 2⟩, ⟨[3], Op.Eq, 1⟩]⟩

/-- A 2x2 puzzle containing a 1-cell Add cage (target 1) next to three Eq
singletons; used against the claim that 1-cell cages must be Eq. -/
def pAdd1cell : Puzzle :=
  ⟨2, [⟨[0], Op.Add, 1⟩, ⟨[1], Op.Eq, 2⟩, ⟨[2], Op.Eq, 2⟩, ⟨[3], Op.Eq, 1⟩]⟩

/-- The 2-cell Div cage of target 2 used by the fast-path theorem. -/
def c3Cage : Cage := ⟨[0, 1], Op.Div, 2⟩

/-- Fresh 4x4 state for the fast-path theorem (only n and the tuple cache
of the state are read on the Sub/Div path). -/
def c3State : SState := initState ⟨4, [c3Cage]⟩

/-- Domains for the fast-path theorem: cell 0 pinned to value 2, cell 1
pinned to value 4, all other cells full; values (2,4) satisfy the Div-2
arithmetic since 4 = 2 * 2. -/
def c3Doms : List Nat := [2 ^ 2, 2 ^ 4] ++ List.replicate 14 (full_domain 4)

/-- A TierRequiredResult with guessing required, zero assignments and a
node count above 50000. -/
def c5Result : TierRequiredResult :=
  ⟨none, ⟨60000, 0, 0, true⟩⟩

/-- Oracle for the generator witness: the Latin square [1,2,2,1], a fixed
partition into two singletons and a row-1 domino, and constant op picks. -/
def c7Oracle : GenOracle :=
  { latin := fun _ => Except.ok [1, 2, 2, 1]
    partitionChoice := fun _ => some [[0], [1], [2, 3]]
    opIndex := fun _ => 0
    addCoin := fun _ => true }

/-- Config for the generator witness: n=2, Hard tier, baseline rules. -/
def c7Config : GenerateConfig :=
  { n := 2, seed := 7, rules := Ruleset.keen_baseline
    tier := DeductionTier.Hard, max_attempts := 3 }

/-- The predicate behind classify_tier_required: the limit-1 deducing solve
at this tier finds a solution and never tries a second value at a node. -/
def deductionOk (p : Puzzle) (rules : Ruleset) (tier : DeductionTier) : Prop :=
  ∃ r, search_with_stats_deducing p rules tier 1 = Except.ok r
    ∧ 0 < r.1 ∧ r.2.2.backtracked = false

/-- The tier-required result classify_tier_required computes for pEq1221:
the Easy tier solves it by pure propagation (one node, no branching). -/
def c8WitnessResult : TierRequiredResult :=
  ⟨some DeductionTier.Easy, ⟨1, 0, 0, false⟩⟩

/-- A 4x4 Latin square used by the generator-at-Easy-tier counterexample.
It lies in the isotopy class latin_solution_seeded samples from: it is
the DLX base square [1,2,3,4; 2,1,4,3; 3,4,1,2; 4,3,2,1] with columns
permuted by (0,2,3,1) and symbols renamed 1->4, 2->2, 3->1, 4->3 (both
squares have 12 intercalates), so it is reachable by a row/column/symbol
permutation draw of the sampler. -/
def c7easySolution : List Nat :=
  [4, 1, 3, 2, 2, 3, 1, 4, 1, 4, 2, 3, 3, 2, 4, 1]

/-- Partition of the 4x4 grid into five dominoes and two triominoes, with
no singleton cage (phase 2 of random_cage_partition merges every leftover
singleton, so generated partitions never contain 1-cell cages): the
dominoes {5,6}, {8,9}, {10,14}, {11,15}, {12,13} arise in phase 1 and
the triominoes {0,1,4}, {2,3,7} by a phase-2 merge of 4 resp. 7 into the
phase-1 dominoes {0,1} and {2,3}; the list is ordered by each cage's
accumulator slot (the first-listed cell), as the source emits it. -/
def c7easyPartition : List (List Nat) :=
  [[0, 1, 4], [2, 3, 7], [5, 6], [8, 9], [10, 14], [11, 15], [12, 13]]

/-- Oracle for the Easy-tier generator counterexample: the fixed Latin
square, the fixed partition, the Add/Mul coin giving Mul to the {0,1,4}
triomino and Add to {2,3,7}, and op indices selecting Mul for {5,6},
{11,15} and {12,13}, Sub for {8,9} and Div for {10,14}. -/
def c7easyOracle : GenOracle :=
  { latin := fun _ => Except.ok c7easySolution
    partitionChoice := fun _ => some c7easyPartition
    opIndex := fun k => [0, 0, 0, 1, 2, 3, 1, 1].getD k 0
    addCoin := fun k => k != 1 }

/-- Config with the uniqueness check tier set to Easy (the field defaults
to Hard in the source but is public and caller-settable). -/
def c7easyConfig : GenerateConfig :=
  { n := 4, seed := 0, rules := Ruleset.keen_baseline
    tier := DeductionTier.Easy, max_attempts := 1 }

/-- The puzzle generate(c7easyConfig) produces from c7easyOracle: all
targets derive from c7easySolution.  It has two genuine solutions
(c7easySolution itself and [2,1,3,4; 4,3,1,2; 1,4,2,3; 3,2,4,1]), but
the Easy-tier count used by the generator gate is 1, because the Sub/Div
singleton fast path erroneously discards the completion whose Div pair
{2,4} on cells {10,14} is pinned by propagation. -/
def c7easyPuzzle : Puzzle :=
  ⟨4, [⟨[0, 1, 4], Op.Mul, 8⟩, ⟨[2, 3, 7], Op.Add, 9⟩, ⟨[5, 6], Op.Mul, 3⟩,
       ⟨[8, 9], Op.Sub, 3⟩, ⟨[10, 14], Op.Div, 2⟩, ⟨[11, 15], Op.Mul, 3⟩,
       ⟨[12, 13], Op.Mul, 6⟩]⟩

/-! ## Claim theorems -/

/-- C1: refuted by the code.  The puzzle pEq1122 passes validation but is
unsolvable (its Eq targets pin the digit 1 twice in row 0).  After the
search assigns cell 0 := 1, cell 1 is unassigned with an empty domain;
choose_mrv_cell then returns Ok(None), which backtrack counts as a
solved node: the search reports one solution whose grid is [1,0,0,0],
with cells 1..3 still unassigned (value 0), instead of failing at that
node and counting 0 solutions. -/
theorem C1_empty_domain_node_counted_as_solution :
    pEq1122.validate Ruleset.keen_baseline = Except.ok ()
    ∧ solve_one pEq1122 Ruleset.keen_baseline
        = Except.ok (some ⟨2, [1, 0, 0, 0]⟩)
    ∧ count_solutions_up_to pEq1122 Ruleset.keen_baseline 2 = Except.ok 1 := by
  decide

/-- C2: refuted by the code.  For the validated puzzle pEq1122,
solve_one_with_deductions at Easy tier returns Some solution whose grid is
[1,1,2,2]: row 0 holds the digit 1 twice, so the row is not a permutation
of 1..2 (unit propagation places both Eq-forced cells of a row in one pass
without re-checking the Latin constraint between them); and the plain
solve_one returns Some solution whose grid contains 0, outside 1..=n. -/
theorem C2_returned_solution_violates_latin :
    pEq1122.validate Ruleset.keen_baseline = Except.ok ()
    ∧ solve_one_with_deductions pEq1122 Ruleset.keen_baseline
        DeductionTier.Easy = Except.ok (some ⟨2, [1, 1, 2, 2]⟩)
    ∧ solve_one_with_deductions pEq1122 Ruleset.keen_baseline
        DeductionTier.None = Except.ok (some ⟨2, [1, 0, 0, 0]⟩) := by
  decide

/-- C3: refuted by the code (code bug).  The singleton values 2 and 4 of a
2-cell Div cage with target 2 satisfy the cage arithmetic (4 = 2 * 2), yet
the Easy/Normal fast path empties both domains: it decodes the singletons
as trailing_zeros + 1 (3 and 5 here) although everywhere else in the
solver bit v stands for value v; the Hard-tier enumeration of the same
input leaves both domains unchanged. -/
theorem C3_sub_div_fast_path_decodes_values_off_by_one :
    cage_satisfied c3Cage [2, 4] = true
    ∧ (apply_cage_deduction Ruleset.keen_baseline c3State c3Cage
        DeductionTier.Easy c3Doms).map
        (fun r => (r.2.getD 0 9, r.2.getD 1 9)) = Except.ok (0, 0)
    ∧ (apply_cage_deduction Ruleset.keen_baseline c3State c3Cage
        DeductionTier.Normal c3Doms).map
        (fun r => (r.2.getD 0 9, r.2.getD 1 9)) = Except.ok (0, 0)
    ∧ (apply_cage_deduction Ruleset.keen_baseline c3State c3Cage
        DeductionTier.Hard c3Doms).map
        (fun r => (r.2.getD 0 9, r.2.getD 1 9))
        = Except.ok (2 ^ 2, 2 ^ 4) := by
  decide

/-- C4: refuted by the code (code bug).  For the validated puzzle pDiv2 the
solution count with limit 2 is 2 at tier None and at tier Hard, but 0 at
the stronger tiers Easy and Normal: the Div fast path of C3 rejects every
completed Div pair, so deductions do change the set of counted
solutions. -/
theorem C4_solution_count_depends_on_tier :
    pDiv2.validate Ruleset.keen_baseline = Except.ok ()
    ∧ count_solutions_up_to_with_deductions pDiv2 Ruleset.keen_baseline
        DeductionTier.None 2 = Except.ok 2
    ∧ count_solutions_up_to_with_deductions pDiv2 Ruleset.keen_baseline
        DeductionTier.Easy 2 = Except.ok 0
    ∧ count_solutions_up_to_with_deductions pDiv2 Ruleset.keen_baseline
        DeductionTier.Normal 2 = Except.ok 0
    ∧ count_solutions_up_to_with_deductions pDiv2 Ruleset.keen_baseline
        DeductionTier.Hard 2 = Except.ok 2 := by
  decide

/-- C5 counterexample: a tier-required result with guessing required
(tier_required = none) and zero assignments (≤ 50000), for which
classify_difficulty_from_tier nevertheless returns Unreasonable, because
the code compares nodes_visited (here 60000), not assignments, to 50000. -/
theorem C5_counterexample_assignments_ignored :
    c5Result.tier_required = none
    ∧ c5Result.stats.assignments ≤ 50000
    ∧ classify_difficulty_from_tier c5Result = DifficultyTier.Unreasonable := by
  decide

/-- C5 as amended: when guessing was required, the classifier returns
Extreme iff the recorded nodes_visited (not assignments) is at most
50000, and Unreasonable otherwise. -/
theorem C5_extreme_iff_nodes_visited_le_50000 (r : TierRequiredResult)
    (h : r.tier_required = none) :
    (classify_difficulty_from_tier r = DifficultyTier.Extreme
      ↔ r.stats.nodes_visited ≤ 50000)
    ∧ (classify_difficulty_from_tier r = DifficultyTier.Unreasonable
      ↔ ¬r.stats.nodes_visited ≤ 50000) := by
  unfold classify_difficulty_from_tier
  rw [h]
  by_cases hn : r.stats.nodes_visited ≤ 50000 <;> simp [hn]

/-- C5 witness: the amended theorem applied to the concrete result of
c5Result, whose node count exceeds 50000. -/
theorem C5_witness :
    (classify_difficulty_from_tier c5Result = DifficultyTier.Extreme
      ↔ c5Result.stats.nodes_visited ≤ 50000)
    ∧ (classify_difficulty_from_tier c5Result = DifficultyTier.Unreasonable
      ↔ ¬c5Result.stats.nodes_visited ≤ 50000) :=
  C5_extreme_iff_nodes_visited_le_50000 c5Result rfl

/-- C6 counterexample: the claim requires a 1-cell cage whose op is Add to
be rejected, but the validator accepts pAdd1cell, whose first cage is the
1-cell Add cage [0] with target 1 (validate only enforces the Eq-implies-
one-cell direction, not its converse). -/
theorem C6_counterexample_one_cell_add_accepted :
    pAdd1cell.validate Ruleset.keen_baseline = Except.ok ()
    ∧ (pAdd1cell.cages.getD 0 dummyCage).op = Op.Add
    ∧ (pAdd1cell.cages.getD 0 dummyCage).cells.length = 1 := by
  decide

/-- C6 as amended: validation enforces the cage-shape invariants with the
Eq-one-cell rule holding in one direction only.  An Eq cage with two or
more cells (inside the size cap) is rejected with InvalidOpForCageSize; a
1-cell Sub or Div cage is rejected with SubDivMustBeTwoCell whenever the
ruleset restricts Sub/Div to two cells; but a 1-cell Add or Mul cage with
an in-range cell and nonzero target is accepted. -/
theorem C6_validate_shape_op_size_rules (n : Nat) (rules : Ruleset)
    (cage : Cage) :
    (cage.op = Op.Eq → 2 ≤ cage.cells.length →
      cage.cells.length ≤ rules.max_cage_size →
      cage.validate_shape n rules
        = Except.error (CoreError.InvalidOpForCageSize Op.Eq cage.cells.length))
    ∧ ((cage.op = Op.Sub ∨ cage.op = Op.Div) → cage.cells.length = 1 →
      rules.sub_div_two_cell_only = true → 1 ≤ rules.max_cage_size →
      cage.validate_shape n rules = Except.error CoreError.SubDivMustBeTwoCell)
    ∧ ((cage.op = Op.Add ∨ cage.op = Op.Mul) → cage.cells.length = 1 →
      1 ≤ rules.max_cage_size → cage.target ≠ 0 → cage.cells.getD 0 0 < n * n →
      cage.validate_shape n rules = Except.ok ()) := by
  refine ⟨?_, ?_, ?_⟩
  · intro hop hlen hmax
    obtain ⟨k, hk⟩ : ∃ k, cage.cells.length = k + 2 :=
      ⟨cage.cells.length - 2, by omega⟩
    have hne : ¬(k + 2 = 0) := by omega
    have hngt : ¬(k + 2 > rules.max_cage_size) := by omega
    simp [Cage.validate_shape, hop, hk, hne, hngt]
  · intro hop hlen hrule hmax
    have hngt : ¬(cage.cells.length > rules.max_cage_size) := by omega
    rcases hop with hop | hop <;>
      simp [Cage.validate_shape, hop, hlen, hlen ▸ hngt, hrule]
  · intro hop hlen hmax htar hcell
    obtain ⟨c0, hc⟩ := List.length_eq_one.mp hlen
    have hngt : ¬(cage.cells.length > rules.max_cage_size) := by omega
    have hconn : is_orthogonally_connected n [c0] = true := by
      unfold is_orthogonally_connected
      rw [if_pos (by simp)]
    have hidx : cell_index n c0 = Except.ok c0 := by
      unfold cell_index
      rw [if_neg (by simp [hc] at hcell; omega)]
    rcases hop with hop | hop <;>
      simp [Cage.validate_shape, hop, hc, hc ▸ hngt, htar, hconn, hidx,
        checkCells] <;>
      omega

/-- C6 witness: the amended theorem applied to a 2-cell Eq cage, a 1-cell
Sub cage and a 1-cell Mul cage over the baseline ruleset on a 2x2 grid. -/
theorem C6_witness :
    Cage.validate_shape ⟨[0, 1], Op.Eq, 1⟩ 2 Ruleset.keen_baseline
      = Except.error (CoreError.InvalidOpForCageSize Op.Eq 2)
    ∧ Cage.validate_shape ⟨[0], Op.Sub, 1⟩ 2 Ruleset.keen_baseline
      = Except.error CoreError.SubDivMustBeTwoCell
    ∧ Cage.validate_shape ⟨[0], Op.Mul, 2⟩ 2 Ruleset.keen_baseline
      = Except.ok () :=
  ⟨(C6_validate_shape_op_size_rules 2 Ruleset.keen_baseline
      ⟨[0, 1], Op.Eq, 1⟩).1 rfl (by decide) (by decide),
    (C6_validate_shape_op_size_rules 2 Ruleset.keen_baseline
      ⟨[0], Op.Sub, 1⟩).2.1 (Or.inl rfl) rfl rfl (by decide),
    (C6_validate_shape_op_size_rules 2 Ruleset.keen_baseline
      ⟨[0], Op.Mul, 2⟩).2.2 (Or.inr rfl) rfl (by decide) (by decide)
      (by decide)⟩

/-- C9 counterexample: for n = 63 — a grid size the solver masks are sized
for and that validation accepts when the core-u64 feature raises the
window to 1..=63 — full_domain returns u64::MAX, which has the bit for
the value 0 set and 64 set bits instead of 63. -/
theorem C9_counterexample_full_domain_63 :
    (full_domain 63).testBit 0 = true ∧ popcount64 (full_domain 63) = 64 := by
  decide

set_option maxRecDepth 100000 in
set_option maxHeartbeats 4000000 in
/-- C9 as amended: for every n up to 62 the solver full_domain mask has
exactly n set bits, exactly the values 1..n, and bit 0 clear; BitDomain
full/empty never set the bit for value 0 and full has exactly n bits for
every representable n; and insert/remove of a value v ≥ 1 preserve a
clear bit 0. -/
theorem C9_domain_laws :
    (∀ n, n < 63 → 1 ≤ n →
      popcount64 (full_domain n) = n
      ∧ (full_domain n).testBit 0 = false
      ∧ ∀ v, v < 64 → ((full_domain n).testBit v = true ↔ 1 ≤ v ∧ v ≤ n))
    ∧ (∀ n, n < 256 →
      (BitDomain.full n).count = n
      ∧ (BitDomain.full n).contains 0 = false
      ∧ (BitDomain.empty n).contains 0 = false)
    ∧ (∀ (d : BitDomain) (v : Nat), 1 ≤ v → d.contains 0 = false →
      (d.insert v).contains 0 = false ∧ (d.remove v).contains 0 = false) := by
  refine ⟨by decide, by decide, ?_⟩
  intro d v hv h0
  unfold BitDomain.insert BitDomain.remove BitDomain.contains at *
  constructor <;>
    simp only [List.getD_eq_getElem?_getD,
      List.getElem?_set_ne (by omega : v ≠ 0)] <;>
    simpa [List.getD_eq_getElem?_getD] using h0

/-- C9 witness: the amended theorem applied at n = 5 for the solver mask,
n = 6 for BitDomain, and insert/remove of the value 3 on the full domain
of size 6. -/
theorem C9_witness :
    (popcount64 (full_domain 5) = 5
      ∧ (full_domain 5).testBit 0 = false
      ∧ ∀ v, v < 64 → ((full_domain 5).testBit v = true ↔ 1 ≤ v ∧ v ≤ 5))
    ∧ ((BitDomain.full 6).count = 6
      ∧ (BitDomain.full 6).contains 0 = false
      ∧ (BitDomain.empty 6).contains 0 = false)
    ∧ (((BitDomain.full 6).insert 3).contains 0 = false
      ∧ ((BitDomain.full 6).remove 3).contains 0 = false) :=
  ⟨C9_domain_laws.1 5 (by decide) (by decide),
    C9_domain_laws.2.1 6 (by decide),
    C9_domain_laws.2.2 (BitDomain.full 6) 3 (by decide) (by decide)⟩

/-- C10: confirmed.  For every n in [1,255] and row, col below n, cell_id
succeeds with the row-major id (the u16 arithmetic cannot wrap for u8
inputs), and coord decodes that id back to (row, col). -/
theorem C10_cell_coord_roundtrip (n row col : Nat) (h1 : 1 ≤ n)
    (h2 : n ≤ 255) (hr : row < n) (hc : col < n) :
    cell_id n row col = Except.ok (row * n + col)
    ∧ coord n (row * n + col) = Except.ok (row, col) := by
  have hb : row * n + col < n * n := by
    calc row * n + col < row * n + n := by omega
    _ = (row + 1) * n := by ring
    _ ≤ n * n := Nat.mul_le_mul_right n (by omega)
  have hmod : (row * n + col) % 2 ^ 16 = row * n + col := by
    apply Nat.mod_eq_of_lt
    have : n * n ≤ 255 * 255 := Nat.mul_le_mul h2 h2
    omega
  constructor
  · unfold cell_id
    rw [if_neg (by omega), hmod]
  · unfold coord cell_index
    rw [if_neg (by omega)]
    have hcomm : row * n + col = n * row + col := by ring
    have hdiv : (row * n + col) / n = row := by
      rw [hcomm, Nat.mul_add_div (by omega)]
      simp [Nat.div_eq_of_lt hc]
    have hmodn : (row * n + col) % n = col := by
      rw [hcomm, Nat.mul_add_mod, Nat.mod_eq_of_lt hc]
    simp [bind, Except.bind, hdiv, hmodn]

/-- C10 witness: the round trip at n = 5, row = 3, col = 2. -/
theorem C10_witness :
    cell_id 5 3 2 = Except.ok 17 ∧ coord 5 17 = Except.ok (3, 2) :=
  C10_cell_coord_roundtrip 5 3 2 (by decide) (by decide) (by decide)
    (by decide)

/-- C8 counterexample: for the validated puzzle pAdd5 (row sum 5 is
impossible for digits 1..2, so root propagation refutes it at once),
classify_tier_required reports tier_required = none, yet no tier of the
three ever branched: every limit-1 solve returns count 0 with the
branched flag still false.  The claim says none occurs exactly when the
solve branches at all three tiers. -/
theorem C8_counterexample_none_without_branching :
    pAdd5.validate Ruleset.keen_baseline = Except.ok ()
    ∧ classify_tier_required pAdd5 Ruleset.keen_baseline
        = Except.ok ⟨none, ⟨0, 0, 0, false⟩⟩
    ∧ (search_with_stats_deducing pAdd5 Ruleset.keen_baseline
        DeductionTier.Easy 1).map (fun r => (r.1, r.2.2.backtracked))
        = Except.ok (0, false)
    ∧ (search_with_stats_deducing pAdd5 Ruleset.keen_baseline
        DeductionTier.Normal 1).map (fun r => (r.1, r.2.2.backtracked))
        = Except.ok (0, false)
    ∧ (search_with_stats_deducing pAdd5 Ruleset.keen_baseline
        DeductionTier.Hard 1).map (fun r => (r.1, r.2.2.backtracked))
        = Except.ok (0, false) := by
  decide

/-- C8 as amended: whenever classify_tier_required succeeds, it returns
Some T for the least tier T in the order Easy < Normal < Hard whose
limit-1 solve finds a solution with branched = false, and it returns
tier_required = none exactly when no tier of the three does so — whether
because the solve branched or because it found no solution at all. -/
theorem C8_tier_required_least_tier (p : Puzzle) (rules : Ruleset)
    (r : TierRequiredResult)
    (h : classify_tier_required p rules = Except.ok r) :
    (r.tier_required = some DeductionTier.Easy
      ↔ deductionOk p rules DeductionTier.Easy)
    ∧ (r.tier_required = some DeductionTier.Normal
      ↔ ¬deductionOk p rules DeductionTier.Easy
        ∧ deductionOk p rules DeductionTier.Normal)
    ∧ (r.tier_required = some DeductionTier.Hard
      ↔ ¬deductionOk p rules DeductionTier.Easy
        ∧ ¬deductionOk p rules DeductionTier.Normal
        ∧ deductionOk p rules DeductionTier.Hard)
    ∧ (r.tier_required = none
      ↔ ¬deductionOk p rules DeductionTier.Easy
        ∧ ¬deductionOk p rules DeductionTier.Normal
        ∧ ¬deductionOk p rules DeductionTier.Hard) := by
  unfold classify_tier_required at h
  cases hE : search_with_stats_deducing p rules DeductionTier.Easy 1 with
  | error e => rw [hE] at h; simp [Bind.bind, Except.bind] at h
  | ok re =>
    rw [hE] at h
    simp only [Bind.bind, Except.bind] at h
    by_cases cE : re.1 > 0 ∧ re.2.2.backtracked = false
    · rw [if_pos cE] at h
      simp only [pure, Except.pure, Except.ok.injEq] at h
      subst h
      have hdE : deductionOk p rules DeductionTier.Easy := ⟨re, hE, cE.1, cE.2⟩
      simp [hdE]
    · rw [if_neg cE] at h
      have hnE : ¬deductionOk p rules DeductionTier.Easy := by
        rintro ⟨r', hr', h1, h2⟩
        rw [hE] at hr'
        cases hr'
        exact cE ⟨h1, h2⟩
      cases hN : search_with_stats_deducing p rules DeductionTier.Normal 1 with
      | error e => rw [hN] at h; simp [Bind.bind, Except.bind] at h
      | ok rn =>
        rw [hN] at h
        simp only [Bind.bind, Except.bind] at h
        by_cases cN : rn.1 > 0 ∧ rn.2.2.backtracked = false
        · rw [if_pos cN] at h
          simp only [pure, Except.pure, Except.ok.injEq] at h
          subst h
          have hdN : deductionOk p rules DeductionTier.Normal :=
            ⟨rn, hN, cN.1, cN.2⟩
          simp [hdN, hnE]
        · rw [if_neg cN] at h
          have hnN : ¬deductionOk p rules DeductionTier.Normal := by
            rintro ⟨r', hr', h1, h2⟩
            rw [hN] at hr'
            cases hr'
            exact cN ⟨h1, h2⟩
          cases hH : search_with_stats_deducing p rules DeductionTier.Hard 1 with
          | error e => rw [hH] at h; simp [Bind.bind, Except.bind] at h
          | ok rh =>
            rw [hH] at h
            simp only [Bind.bind, Except.bind] at h
            by_cases cH : rh.1 > 0 ∧ rh.2.2.backtracked = false
            · rw [if_pos cH] at h
              simp only [pure, Except.pure, Except.ok.injEq] at h
              subst h
              have hdH : deductionOk p rules DeductionTier.Hard :=
                ⟨rh, hH, cH.1, cH.2⟩
              simp [hdH, hnE, hnN]
            · rw [if_neg cH] at h
              have hnH : ¬deductionOk p rules DeductionTier.Hard := by
                rintro ⟨r', hr', h1, h2⟩
                rw [hH] at hr'
                cases hr'
                exact cH ⟨h1, h2⟩
              simp only [pure, Except.pure, Except.ok.injEq] at h
              subst h
              simp [hnE, hnN, hnH]

/-- C8 witness: the amended theorem applied to pEq1221, which the Easy tier
solves by propagation alone, giving tier_required = some Easy. -/
theorem C8_witness :
    (c8WitnessResult.tier_required = some DeductionTier.Easy
      ↔ deductionOk pEq1221 Ruleset.keen_baseline DeductionTier.Easy)
    ∧ (c8WitnessResult.tier_required = some DeductionTier.Normal
      ↔ ¬deductionOk pEq1221 Ruleset.keen_baseline DeductionTier.Easy
        ∧ deductionOk pEq1221 Ruleset.keen_baseline DeductionTier.Normal)
    ∧ (c8WitnessResult.tier_required = some DeductionTier.Hard
      ↔ ¬deductionOk pEq1221 Ruleset.keen_baseline DeductionTier.Easy
        ∧ ¬deductionOk pEq1221 Ruleset.keen_baseline DeductionTier.Normal
        ∧ deductionOk pEq1221 Ruleset.keen_baseline DeductionTier.Hard)
    ∧ (c8WitnessResult.tier_required = none
      ↔ ¬deductionOk pEq1221 Ruleset.keen_baseline DeductionTier.Easy
        ∧ ¬deductionOk pEq1221 Ruleset.keen_baseline DeductionTier.Normal
        ∧ ¬deductionOk pEq1221 Ruleset.keen_baseline DeductionTier.Hard) :=
  C8_tier_required_least_tier pEq1221 Ruleset.keen_baseline c8WitnessResult
    (by decide)

/-! ## Generator correctness lemmas (shared helpers for the C7 theorem) -/

/-- A cage accepted by validate_shape has a nonzero target. -/

theorem validate_shape_target_ne_zero {cage : Cage} {n : Nat} {rules : Ruleset}
    {u : Unit} (h : cage.validate_shape n rules = Except.ok u) :
    cage.target ≠ 0 := by
  intro htar
  unfold Cage.validate_shape at h
  simp [htar] at h
  split at h
  · cases h
  · split at h
    · cases h
    · split at h <;> cases h

/-- Every cage of a list accepted by validateCages passes validate_shape. -/
theorem validateCages_shape_ok (n : Nat) (rules : Ruleset) :
    ∀ (L : List Cage) (seen out : List Bool),
      validateCages n rules L seen = Except.ok out →
      ∀ cage ∈ L, cage.validate_shape n rules = Except.ok () := by
  intro L
  induction L with
  | nil => intro seen out h cage hc; simp at hc
  | cons c rest ih =>
    intro seen out h cage hc
    unfold validateCages at h
    cases hs : c.validate_shape n rules with
    | error e => rw [hs] at h; simp at h
    | ok u =>
      rw [hs] at h
      cases hm : markCells n c.cells seen with
      | error e => rw [hm] at h; simp at h
      | ok seen2 =>
        rw [hm] at h
        rcases List.mem_cons.mp hc with hcc | hcc
        · subst hcc; cases u; exact hs
        · exact ih seen2 out h cage hcc

/-- Every cage of a validated puzzle passes validate_shape. -/
theorem validate_shapes {p : Puzzle} {rules : Ruleset} {u : Unit}
    (h : p.validate rules = Except.ok u) :
    ∀ cage ∈ p.cages, cage.validate_shape p.n rules = Except.ok () := by
  unfold Puzzle.validate at h
  split at h
  · simp at h
  · cases hv : validateCages p.n rules p.cages
        (List.replicate (p.n * p.n) false) with
    | error e => rw [hv] at h; simp at h
    | ok seen => exact validateCages_shape_ok p.n rules p.cages _ seen hv

/-- Any op chosen from the 2-cell ops list of assignCage, with the target
computed from the pair as the source does, yields a satisfied cage when
the target is nonzero (the Div guard in the ops list supplies
divisibility). -/
theorem two_cell_cage_sat (rules : Ruleset) (c0 c1 a b idx : Nat)
    (ops : List Op)
    (hops : ops = [Op.Add, Op.Mul]
      ++ (if rules.sub_div_two_cell_only then
        [Op.Sub] ++ (if a % b = 0 ∨ b % a = 0 then [Op.Div] else [])
      else []))
    (chosen : Op) (target : Int)
    (htg : target = match chosen with
      | Op.Add => (a : Int) + (b : Int)
      | Op.Mul => (a : Int) * (b : Int)
      | Op.Sub => |(a : Int) - (b : Int)|
      | Op.Div =>
        let nd := if a ≥ b then (a, b) else (b, a)
        ((nd.1 / nd.2 : Nat) : Int)
      | Op.Eq => 0)
    (hch : chosen = ops.getD (idx % ops.length) Op.Add)
    (htar : target ≠ 0) :
    cage_satisfied ⟨[c0, c1], chosen, target⟩ [(a : Int), (b : Int)] = true := by
  have hpos : 0 < ops.length := by rw [hops]; simp
  have hmem : chosen ∈ ops := by
    rw [hch, List.getD_eq_getElem _ _ (Nat.mod_lt _ hpos)]
    exact List.getElem_mem _
  cases chosen with
  | Add => simp [cage_satisfied, htg]
  | Mul => simp [cage_satisfied, htg]
  | Sub => simp [cage_satisfied, htg]
  | Eq =>
    rw [hops] at hmem
    simp at hmem
  | Div =>
    have hguard : a % b = 0 ∨ b % a = 0 := by
      rw [hops] at hmem
      simp at hmem
      exact hmem.2
    simp only [] at htg
    by_cases hab : a ≥ b
    · rw [if_pos hab] at htg
      have hdne : (a / b : Nat) ≠ 0 := by
        intro h0
        rw [htg] at htar
        simp [h0] at htar
      have hb0 : b ≠ 0 := by
        intro h0
        rw [h0, Nat.div_zero] at hdne
        exact hdne rfl
      have hdvd : b ∣ a := by
        rcases hguard with hg | hg
        · exact Nat.dvd_of_mod_eq_zero hg
        · have hba : a ∣ b := Nat.dvd_of_mod_eq_zero hg
          have hle : a ≤ b := Nat.le_of_dvd (Nat.pos_of_ne_zero hb0) hba
          have hae : a = b := le_antisymm hle hab
          rw [hae]
      have hmaxe : max (a : Int) (b : Int) = (a : Int) := max_eq_left (by exact_mod_cast hab)
      have hmine : min (a : Int) (b : Int) = (b : Int) := min_eq_right (by exact_mod_cast hab)
      rw [htg]
      simp only [cage_satisfied]
      simp [hmaxe, hmine, hb0]
      exact_mod_cast hdvd
    · rw [if_neg hab] at htg
      have hdne : (b / a : Nat) ≠ 0 := by
        intro h0
        rw [htg] at htar
        simp [h0] at htar
      have ha0 : a ≠ 0 := by
        intro h0
        rw [h0, Nat.div_zero] at hdne
        exact hdne rfl
      have hba : b ≥ a := by omega
      have hdvd : a ∣ b := by
        rcases hguard with hg | hg
        · have hab2 : b ∣ a := Nat.dvd_of_mod_eq_zero hg
          have hle : b ≤ a := Nat.le_of_dvd (Nat.pos_of_ne_zero ha0) hab2
          have hae : b = a := by omega
          rw [hae]
        · exact Nat.dvd_of_mod_eq_zero hg
      have hmaxe : max (a : Int) (b : Int) = (b : Int) := max_eq_right (by exact_mod_cast hba)
      have hmine : min (a : Int) (b : Int) = (a : Int) := min_eq_left (by exact_mod_cast hba)
      rw [htg]
      simp only [cage_satisfied]
      simp [hmaxe, hmine, ha0]
      exact_mod_cast hdvd

/-- A cage built by assignCage whose target is nonzero is satisfied by the
solution values at its cells. -/
theorem assignCage_satisfied (oracle : GenOracle) (rules : Ruleset)
    (sol : List Nat) (k : Nat) (cells : List Nat)
    (htar : (assignCage oracle rules sol k cells).1.target ≠ 0) :
    cage_satisfied (assignCage oracle rules sol k cells).1
      ((assignCage oracle rules sol k cells).1.cells.map
        (fun c => ((sol.getD c 0 : Nat) : Int))) = true := by
  match cells with
  | [] =>
    by_cases hcoin : oracle.addCoin k
    · exfalso
      apply htar
      simp [assignCage, hcoin]
    · simp [assignCage, hcoin, cage_satisfied]
  | [c0] =>
    simp [assignCage, cage_satisfied]
  | [c0, c1] =>
    simp only [assignCage, List.map_cons, List.map_nil, List.getD_cons_zero,
      List.getD_cons_succ] at htar ⊢
    exact two_cell_cage_sat rules c0 c1 (sol.getD c0 0) (sol.getD c1 0)
      (oracle.opIndex k) _ rfl _ _ rfl rfl htar
  | c0 :: c1 :: c2 :: rest =>
    by_cases hcoin : oracle.addCoin k
    · simp [assignCage, hcoin, cage_satisfied, List.map_map, Function.comp_def]
    · simp [assignCage, hcoin, cage_satisfied, List.map_map, Function.comp_def,
        List.prod_eq_foldl, List.foldl_map]

/-- Every cage in the assign_ops_and_targets fold comes from the initial
accumulator or from some assignCage call. -/
theorem mem_assign_fold (oracle : GenOracle) (rules : Ruleset)
    (sol : List Nat) :
    ∀ (L : List (List Nat)) (init : List Cage) (ctr : Nat) (cage : Cage),
      cage ∈ (L.foldl
        (fun (acc : List Cage × Nat) cells =>
          let cc := assignCage oracle rules sol acc.2 cells
          (acc.1 ++ [cc.1], cc.2)) (init, ctr)).1 →
      cage ∈ init ∨ ∃ k cells, cage = (assignCage oracle rules sol k cells).1 := by
  intro L
  induction L with
  | nil =>
    intro init ctr cage h
    exact Or.inl (by simpa using h)
  | cons c rest ih =>
    intro init ctr cage h
    simp only [List.foldl_cons] at h
    rcases ih _ _ cage h with hin | hex
    · rcases List.mem_append.mp hin with h1 | h2
      · exact Or.inl h1
      · right
        exact ⟨ctr, c, List.mem_singleton.mp h2⟩
    · exact Or.inr hex

/-- Every cage of a puzzle produced by assign_ops_and_targets is satisfied
by the solution it was derived from (validation supplies the nonzero
target). -/
theorem assign_ops_cages_satisfied (oracle : GenOracle) (rules : Ruleset)
    (n : Nat) (sol : List Nat) (cagesCells : List (List Nat)) (ctr : Nat)
    (pz : Puzzle) (ctr2 : Nat)
    (h : assign_ops_and_targets oracle n sol cagesCells rules ctr
        = Except.ok (pz, ctr2)) :
    ∀ cage ∈ pz.cages,
      cage_satisfied cage
        (cage.cells.map (fun c => ((sol.getD c 0 : Nat) : Int))) = true := by
  unfold assign_ops_and_targets at h
  split at h
  · cases h
  · simp only [] at h
    cases hv : Puzzle.validate ⟨n, (cagesCells.foldl
        (fun (acc : List Cage × Nat) cells =>
          let cc := assignCage oracle rules sol acc.2 cells
          (acc.1 ++ [cc.1], cc.2)) ([], ctr)).1⟩ rules with
    | error e => rw [hv] at h; cases h
    | ok u =>
      rw [hv] at h
      cases h
      intro cage hc
      have hfrom := mem_assign_fold oracle rules sol cagesCells [] ctr cage hc
      rcases hfrom with hin | ⟨k, cells, hcage⟩
      · simp at hin
      · have hshape := validate_shapes hv cage hc
        have htar := validate_shape_target_ne_zero hshape
        subst hcage
        exact assignCage_satisfied oracle rules sol k cells htar

/-- The generate attempt loop only returns Ok after the solver counted
exactly one solution at the configured tier, and every cage of the
returned puzzle is satisfied by the returned solution. -/
theorem genLoop_ok (oracle : GenOracle) (cfg : GenerateConfig) :
    ∀ (fuel attempt ctr : Nat) (g : GeneratedPuzzle),
      genLoop oracle cfg fuel attempt ctr = Except.ok g →
      count_solutions_up_to_with_deductions g.puzzle cfg.rules cfg.tier 2
        = Except.ok 1 ∧
      ∀ cage ∈ g.puzzle.cages,
        cage_satisfied cage (cage.cells.map
          (fun c => ((g.solution.getD c 0 : Nat) : Int))) = true := by
  intro fuel
  induction fuel with
  | zero =>
    intro attempt ctr g h
    simp [genLoop] at h
  | succ fuel ih =>
    intro attempt ctr g h
    rw [genLoop] at h
    cases hl : oracle.latin (cfg.seed ^^^ ((attempt * goldenGamma) % 2 ^ 64)) with
    | error e => rw [hl] at h; simp [Bind.bind, Except.bind] at h
    | ok solution =>
      rw [hl] at h
      simp only [Bind.bind, Except.bind] at h
      cases hp : oracle.partitionChoice ctr with
      | none =>
        rw [hp] at h
        simp only [] at h
        exact ih _ _ g h
      | some partition =>
        rw [hp] at h
        simp only [] at h
        cases ha : assign_ops_and_targets oracle cfg.n solution partition
            cfg.rules (ctr + 1) with
        | error e => rw [ha] at h; simp [Bind.bind, Except.bind] at h
        | ok pc =>
          rw [ha] at h
          simp only [Bind.bind, Except.bind] at h
          cases hc : count_solutions_up_to_with_deductions pc.1 cfg.rules
              cfg.tier 2 with
          | error e => rw [hc] at h; simp [Except.mapError] at h
          | ok count =>
            rw [hc] at h
            simp only [Except.mapError] at h
            by_cases h1 : count = 1
            · rw [if_pos h1] at h
              cases h
              subst h1
              refine ⟨hc, ?_⟩
              exact assign_ops_cages_satisfied oracle cfg.rules cfg.n solution
                partition (ctr + 1) pc.1 pc.2 (by rw [← ha])
            · rw [if_neg h1] at h
              exact ih _ _ g h


/-- C7, corrected.  Whenever generate returns Ok with a (puzzle, solution)
pair, counting solutions of that puzzle with limit 2 succeeds with count
exactly 1 at the CONFIGURED tier (config.tier, which defaults to Hard in
the source but is a public caller-settable field), and the returned
solution satisfies every cage of the returned puzzle.  The claim's
"at Hard tier" only follows when config.tier = Hard; the companion
counterexample shows a config with tier Easy whose generated puzzle has
two Hard-tier solutions. -/
theorem C7_generate_unique_at_config_tier (oracle : GenOracle)
    (cfg : GenerateConfig) (g : GeneratedPuzzle)
    (h : generate oracle cfg = Except.ok g) :
    count_solutions_up_to_with_deductions g.puzzle cfg.rules cfg.tier 2
      = Except.ok 1 ∧
    ∀ cage ∈ g.puzzle.cages,
      cage_satisfied cage (cage.cells.map
        (fun c => ((g.solution.getD c 0 : Nat) : Int))) = true :=
  genLoop_ok oracle cfg cfg.max_attempts 0 0 g h

/-- C7 witness: the concrete n=2 Hard-tier oracle run accepts the puzzle
of two Eq singletons and an Add domino over the Latin square [1,2,2,1],
and the theorem instantiates to its count being 1 at the configured
(Hard) tier. -/
theorem C7_witness :
    generate c7Oracle c7Config = Except.ok
      ⟨⟨2, [⟨[0], Op.Eq, 1⟩, ⟨[1], Op.Eq, 2⟩, ⟨[2, 3], Op.Add, 3⟩]⟩,
        [1, 2, 2, 1]⟩
    ∧ count_solutions_up_to_with_deductions
        ⟨2, [⟨[0], Op.Eq, 1⟩, ⟨[1], Op.Eq, 2⟩, ⟨[2, 3], Op.Add, 3⟩]⟩
        c7Config.rules c7Config.tier 2 = Except.ok 1 :=
  ⟨by decide,
    (C7_generate_unique_at_config_tier c7Oracle c7Config
      ⟨⟨2, [⟨[0], Op.Eq, 1⟩, ⟨[1], Op.Eq, 2⟩, ⟨[2, 3], Op.Add, 3⟩]⟩,
        [1, 2, 2, 1]⟩ (by decide)).1⟩

set_option maxRecDepth 200000 in
set_option maxHeartbeats 4000000 in
/-- C7 counterexample to the claim as stated: with the uniqueness-check
tier set to Easy, generate accepts c7easyPuzzle (the Easy-tier count is 1
because the Sub/Div singleton fast path discards the generator's own
completion c7easySolution), yet the same puzzle has exactly 2 solutions
at Hard tier with limit 2, not 1.  The oracle inputs are all reachable:
the Latin square is an isotopy of the DLX base square (the exact class
latin_solution_seeded samples), the partition has no singleton cage and
arises from a phase-1/phase-2 run of random_cage_partition in slot
order, and the op choices come from the ops-list indices and the Add/Mul
coin. -/
theorem C7_counterexample_easy_tier_nonunique_at_hard :
    generate c7easyOracle c7easyConfig
      = Except.ok ⟨c7easyPuzzle, c7easySolution⟩
    ∧ count_solutions_up_to_with_deductions c7easyPuzzle
        Ruleset.keen_baseline DeductionTier.Hard 2 = Except.ok 2 := by
  constructor
  · decide
  · decide

end RustyKeen
